import Mathlib

/-!
Verification of the reconciliation/delta-sync engine of
`scripts/sync_top_100.py` (marathon-majors-league).

The script is embedded shallowly:

* Python dicts holding JSON-like data are `List (String × Value)`
  (association lists in insertion order; keys are unique in Python, and
  `dict.get` is order-insensitive, so an association-list lookup is faithful).
* Timestamps are seconds-since-epoch naturals (`NOW()` is a parameter `t`;
  `datetime.now(timezone.utc)` is a parameter `now`).  `timedelta.days` for a
  non-negative difference is floor division by 86400, which matches Nat
  subtraction/division; a future `last_fetched_at` gives a negative day count
  in Python and `0` here — both fail the `> force_refresh_days` test.
* The database table `athletes` is `List (String × AthleteRow)` keyed by
  `world_athletics_id` (the unique key; per the schema the sync reads and
  writes it is always present, so the SQL guard `world_athletics_id IS NOT
  NULL` is identically true in the model).
* Network calls are oracles: a detail-fetch oracle
  `String → Option (List (String × Value))` gives the ultimate outcome of the
  `retry_with_backoff`-wrapped `wa_client.get_athlete` call (`none` = the
  fetch kept failing until retries were exhausted).
* `retry_with_backoff` itself is modelled separately with the per-attempt
  outcome as a function of the attempt index, returning the performed
  `time.sleep` durations as an explicit trace.
-/

/-- JSON-like Python values as produced by the World Athletics client and
consumed by `sync_top_100.py`.  Numbers are modelled as integers (none of the
verified properties depend on float formatting). -/
inductive Value where
  | vnull : Value
  | vbool : Bool → Value
  | vint : Int → Value
  | vstr : String → Value
  | varr : List Value → Value
  | vobj : List (String × Value) → Value

/-- Python truthiness (`bool(v)`) for the modelled values. -/
def truthy : Value → Bool
  | Value.vnull => false
  | Value.vbool b => b
  | Value.vint n => decide (n ≠ 0)
  | Value.vstr s => decide (s ≠ "")
  | Value.varr xs => !xs.isEmpty
  | Value.vobj fs => !fs.isEmpty

/-- Python `d.get(k)`: the value at `k`, or `None` when the key is absent. -/
def pyGet (d : List (String × Value)) (k : String) : Value :=
  match d.lookup k with
  | some v => v
  | none => Value.vnull

/-- Python `d.get(k, default)`. -/
def pyGetD (d : List (String × Value)) (k : String) (dflt : Value) : Value :=
  match d.lookup k with
  | some v => v
  | none => dflt

/-- Python `a or b` (returns `a` when truthy, else `b`). -/
def pyOr (a b : Value) : Value :=
  if truthy a then a else b

/-- Lowercase hex digit for a nibble. -/
def hexDigit (n : Nat) : Char :=
  if n < 10 then Char.ofNat (48 + n) else Char.ofNat (87 + n)

/-- Four lowercase hex digits of a 16-bit value (for JSON escapes). -/
def hex4 (n : Nat) : String :=
  String.mk ((List.range 4).map (fun i => hexDigit ((n >>> (4 * (3 - i))) % 16)))

/-- Escape one character the way `json.dumps` (with the default
`ensure_ascii=True`) renders characters inside a string literal. -/
def jsonEscapeChar (c : Char) : String :=
  let n := c.toNat
  if c = '"' then "\\\""
  else if c = '\\' then "\\\\"
  else if c = '\n' then "\\n"
  else if c = '\r' then "\\r"
  else if c = '\t' then "\\t"
  else if n = 8 then "\\b"
  else if n = 12 then "\\f"
  else if n < 32 then "\\u" ++ hex4 n
  else if n < 128 then String.singleton c
  else if n < 65536 then "\\u" ++ hex4 n
  else "\\u" ++ hex4 (55296 + (n - 65536) / 1024) ++ "\\u" ++ hex4 (56320 + (n - 65536) % 1024)

/-- A JSON string literal as rendered by `json.dumps`. -/
def jsonQuote (s : String) : String :=
  "\"" ++ String.join (s.data.map jsonEscapeChar) ++ "\""

/-- Sort an association list of rendered fields by key, as `sort_keys=True`
does (Python sorts `str` keys by code point, which is what `String.le` on the
underlying character data compares). -/
def sortByKey (fs : List (String × String)) : List (String × String) :=
  fs.mergeSort (fun a b => decide (a.1 ≤ b.1))

mutual
/-- Python `json.dumps(v, sort_keys=sk, separators=(',', ':') if sk else
default)`.  With `sk = true` this is the canonical serialization used by
`canonical_hash` (sorted keys, compact separators); with `sk = false` it is
the plain `json.dumps(v)` used for the `raw_json` column (insertion order,
default `', '`/`': '` separators).  Objects render each field first and sort
the rendered fields by key, which agrees with sorting the fields and then
rendering, since rendering is per-field. -/
def pyJsonDump (sk : Bool) : Value → String
  | Value.vnull => "null"
  | Value.vbool b => if b then "true" else "false"
  | Value.vint n => toString n
  | Value.vstr s => jsonQuote s
  | Value.varr xs => "[" ++ pyJsonDumpList sk xs ++ "]"
  | Value.vobj fs =>
      let rendered := pyJsonDumpFields sk fs
      let rendered := if sk then sortByKey rendered else rendered
      let kvSep := if sk then ":" else ": "
      let itemSep := if sk then "," else ", "
      "\x7b" ++ String.intercalate itemSep
        (rendered.map (fun p => jsonQuote p.1 ++ kvSep ++ p.2)) ++ "\x7d"

/-- Render the elements of a JSON array, separated later. -/
def pyJsonDumpList (sk : Bool) : List Value → String
  | [] => ""
  | [x] => pyJsonDump sk x
  | x :: y :: xs => pyJsonDump sk x ++ (if sk then "," else ", ") ++ pyJsonDumpList sk (y :: xs)

/-- Render each object field to `(key, rendered value)`. -/
def pyJsonDumpFields (sk : Bool) : List (String × Value) → List (String × String)
  | [] => []
  | (k, v) :: fs => (k, pyJsonDump sk v) :: pyJsonDumpFields sk fs
end

/-- Python `str(v)` as used on athlete ids
(`str(node.get('id') or node.get('worldAthleticsId'))`).  Ids are scalars
(strings or ints) in practice; containers fall back to the JSON rendering,
which differs from Python `str` only in quoting details that no verified
property depends on. -/
def pyStrId : Value → String
  | Value.vstr s => s
  | Value.vint n => toString n
  | Value.vnull => "None"
  | Value.vbool b => if b then "True" else "False"
  | v => pyJsonDump false v

/-- Truncate to 32 bits (`% 2^32`). -/
def w32 (n : Nat) : Nat := n % 4294967296

/-- Rotate a 32-bit word right by `n` bits. -/
def rotr32 (n x : Nat) : Nat := w32 ((x >>> n) ||| (x <<< (32 - n)))

/-- SHA-256 round constants (FIPS 180-4), as decimal naturals. -/
def sha256K : List Nat :=
  [1116352408, 1899447441, 3049323471, 3921009573, 961987163,
   1508970993, 2453635748, 2870763221, 3624381080, 310598401,
   607225278, 1426881987, 1925078388, 2162078206, 2614888103,
   3248222580, 3835390401, 4022224774, 264347078, 604807628,
   770255983, 1249150122, 1555081692, 1996064986, 2554220882,
   2821834349, 2952996808, 3210313671, 3336571891, 3584528711,
   113926993, 338241895, 666307205, 773529912, 1294757372,
   1396182291, 1695183700, 1986661051, 2177026350, 2456956037,
   2730485921, 2820302411, 3259730800, 3345764771, 3516065817,
   3600352804, 4094571909, 275423344, 430227734, 506948616,
   659060556, 883997877, 958139571, 1322822218, 1537002063,
   1747873779, 1955562222, 2024104815, 2227730452, 2361852424,
   2428436474, 2756734187, 3204031479, 3329325298]

/-- SHA-256 initial hash state (FIPS 180-4), as decimal naturals. -/
def sha256H0 : List Nat :=
  [1779033703, 3144134277, 1013904242, 2773480762,
   1359893119, 2600822924, 528734635, 1541459225]

/-- SHA-256 big sigma 0. -/
def bigSigma0 (x : Nat) : Nat := rotr32 2 x ^^^ rotr32 13 x ^^^ rotr32 22 x

/-- SHA-256 big sigma 1. -/
def bigSigma1 (x : Nat) : Nat := rotr32 6 x ^^^ rotr32 11 x ^^^ rotr32 25 x

/-- SHA-256 small sigma 0. -/
def smallSigma0 (x : Nat) : Nat := rotr32 7 x ^^^ rotr32 18 x ^^^ (x >>> 3)

/-- SHA-256 small sigma 1. -/
def smallSigma1 (x : Nat) : Nat := rotr32 17 x ^^^ rotr32 19 x ^^^ (x >>> 10)

/-- SHA-256 choice function (`(x AND y) XOR ((NOT x) AND z)` on 32 bits). -/
def sha256Ch (x y z : Nat) : Nat := (x &&& y) ^^^ ((x ^^^ 0xffffffff) &&& z)

/-- SHA-256 majority function. -/
def sha256Maj (x y z : Nat) : Nat := (x &&& y) ^^^ (x &&& z) ^^^ (y &&& z)

/-- Big-endian byte rendering of `val` on `n` bytes. -/
def toBytesBE (n val : Nat) : List Nat :=
  (List.range n).map (fun i => (val >>> (8 * (n - 1 - i))) % 256)

/-- SHA-256 padding of a byte string: `0x80`, zeros to 56 mod 64, then the
bit length on 8 big-endian bytes. -/
def sha256Pad (msg : List Nat) : List Nat :=
  msg ++ (0x80 :: List.replicate ((119 - msg.length % 64) % 64) 0) ++ toBytesBE 8 (msg.length * 8)

/-- Split a list into chunks of `n` (the last may be shorter); fuel-driven so
that the recursion is structural. -/
def chunksAux (n : Nat) : Nat → List α → List (List α)
  | 0, _ => []
  | _, [] => []
  | fuel + 1, l => l.take n :: chunksAux n fuel (l.drop n)

/-- Split a list into chunks of `n` elements (models Python slicing loops
`for i in range(0, len(xs), n): xs[i:i+n]`). -/
def chunksOf (n : Nat) (l : List α) : List (List α) :=
  chunksAux n l.length l

/-- Fold 4 big-endian bytes into a 32-bit word. -/
def bytesToWord (bs : List Nat) : Nat := bs.foldl (fun a b => a * 256 + b) 0

/-- Extend the 16-word schedule by `k` further words. -/
def sha256Extend : List Nat → Nat → List Nat
  | ws, 0 => ws
  | ws, k + 1 =>
      let t := w32 (smallSigma1 (ws.getD (ws.length - 2) 0) + ws.getD (ws.length - 7) 0 +
        smallSigma0 (ws.getD (ws.length - 15) 0) + ws.getD (ws.length - 16) 0)
      sha256Extend (ws ++ [t]) k

/-- One SHA-256 compression round, acting on the 8-word working state. -/
def sha256Round (state : List Nat) (kw : Nat × Nat) : List Nat :=
  match state with
  | [a, b, c, d, e, f, g, h] =>
      let t1 := w32 (h + bigSigma1 e + sha256Ch e f g + kw.1 + kw.2)
      let t2 := w32 (bigSigma0 a + sha256Maj a b c)
      [w32 (t1 + t2), a, b, c, w32 (d + t1), e, f, g]
  | s => s

/-- Process one 64-byte block. -/
def sha256Block (h : List Nat) (block : List Nat) : List Nat :=
  let ws := sha256Extend ((chunksOf 4 block).map bytesToWord) 48
  let s := (sha256K.zip ws).foldl sha256Round h
  (h.zip s).map (fun p => w32 (p.1 + p.2))

/-- Eight lowercase hex digits of a 32-bit word. -/
def toHex8 (v : Nat) : String :=
  String.mk ((List.range 8).map (fun i => hexDigit ((v >>> (4 * (7 - i))) % 16)))

/-- `hashlib.sha256(bytes).hexdigest()` over a byte string. -/
def sha256Hex (msg : List Nat) : String :=
  String.join ((((chunksOf 64 (sha256Pad msg)).foldl sha256Block sha256H0)).map toHex8)

/-- UTF-8 bytes of a string (`.encode('utf-8')`). -/
def utf8Bytes (s : String) : List Nat :=
  s.toUTF8.toList.map (fun b => b.toNat)

/-- `canonical_hash(obj)`: SHA-256 hex digest of
`json.dumps(obj, sort_keys=True, separators=(',', ':'))` encoded as UTF-8. -/
def canonical_hash (obj : List (String × Value)) : String :=
  sha256Hex (utf8Bytes (pyJsonDump true (Value.vobj obj)))

/-- `canonicalize_athlete(athlete_data)`: the fixed ten-field canonical
projection of a detail record. -/
def canonicalize_athlete (athlete_data : List (String × Value)) : List (String × Value) :=
  [("id", pyOr (pyGet athlete_data "id") (pyGet athlete_data "worldAthleticsId")),
   ("name", pyGet athlete_data "name"),
   ("gender", pyGet athlete_data "gender"),
   ("country", pyGet athlete_data "country"),
   ("dob", pyOr (pyGet athlete_data "dob") (pyGet athlete_data "dateOfBirth")),
   ("personalBest", pyOr (pyGet athlete_data "personalBest") (pyGet athlete_data "pb")),
   ("seasonBest", pyGet athlete_data "seasonBest"),
   ("headshotUrl", pyOr (pyGet athlete_data "headshotUrl") (pyGet athlete_data "headshot")),
   ("sponsor", pyGet athlete_data "sponsor"),
   ("age", pyGet athlete_data "age")]

/-- Loop body of `retry_with_backoff`: `attempt` is the current 0-based
attempt index, the second argument the number of loop iterations left.
Returns the Python return/raise outcome (`none` models the implicit `return
None` when the `range` is empty, which only happens for `max_retries = 0`)
together with the list of `time.sleep` backoff durations performed. -/
def retryLoop (f : Nat → Except E A) (initial_backoff attempt : Nat) :
    Nat → Option (Except E A) × List Nat
  | 0 => (none, [])
  | remaining + 1 =>
      match f attempt with
      | Except.ok a => (some (Except.ok a), [])
      | Except.error e =>
          if remaining = 0 then (some (Except.error e), [])
          else
            let rest := retryLoop f initial_backoff (attempt + 1) remaining
            (rest.1, initial_backoff * 2 ^ attempt :: rest.2)

/-- `retry_with_backoff(func, max_retries, initial_backoff)`: `f i` is the
outcome of the `i`-th call of `func` (0-based).  The result pairs the
returned value (or the exception re-raised on the last attempt) with the
trace of `time.sleep` durations. -/
def retry_with_backoff (f : Nat → Except E A) (max_retries initial_backoff : Nat) :
    Option (Except E A) × List Nat :=
  retryLoop f initial_backoff 0 max_retries

/-- One entry of the ranking summary list.  `id` is the resolved
`str(node.get('id') or node.get('worldAthleticsId'))`; `rank` is
`node.get('rank')` (`none` when the key is absent or null). -/
structure SummaryNode where
  id : String
  rank : Option Int
deriving DecidableEq

/-- The per-id projection of the database returned by `load_db_snapshot`. -/
structure SnapshotInfo where
  data_hash : Option String
  marathon_rank : Option Int
  last_fetched_at : Option Nat
  last_seen_at : Option Nat
deriving DecidableEq

/-- The columns of the `athletes` table that `sync_top_100.py` reads or
writes.  The key `world_athletics_id` is held separately as the association
key of the table. -/
structure AthleteRow where
  name : Value
  country : Value
  gender : String
  personal_best : Value
  headshot_url : Value
  world_athletics_profile_url : Option String
  marathon_rank : Option Int
  date_of_birth : Value
  sponsor : Value
  season_best : Value
  age : Value
  raw_json : String
  data_hash : Option String
  ranking_source : String
  last_fetched_at : Option Nat
  last_seen_at : Option Nat
  updated_at : Option Nat

/-- The `athletes` table: rows keyed by `world_athletics_id`. -/
abbrev DB : Type := List (String × AthleteRow)

/-- `load_db_snapshot(conn, athlete_ids)`: the
`{data_hash, marathon_rank, last_fetched_at, last_seen_at}` projection of the
rows whose id is in `athlete_ids` (`WHERE world_athletics_id = ANY(%s)`);
absent ids are simply missing from the mapping. -/
def load_db_snapshot (db : DB) (athlete_ids : List String) : List (String × SnapshotInfo) :=
  db.filterMap (fun p =>
    if p.1 ∈ athlete_ids then
      some (p.1, ⟨p.2.data_hash, p.2.marathon_rank, p.2.last_fetched_at, p.2.last_seen_at⟩)
    else none)

/-- Loop body of `detect_candidates` for one ranking node, acting on the
accumulated `(new_ids, rank_changed_ids, stale_ids)` sets (modelled as
duplicate-free lists). -/
def detectStep (db_snapshot : List (String × SnapshotInfo)) (now force_refresh_days : Nat)
    (acc : List String × List String × List String) (node : SummaryNode) :
    List String × List String × List String :=
  match db_snapshot.lookup node.id with
  | none => (acc.1.insert node.id, acc.2.1, acc.2.2)
  | some db_info =>
      let rank_changed := if db_info.marathon_rank ≠ node.rank
        then acc.2.1.insert node.id else acc.2.1
      let stale := match db_info.last_fetched_at with
        | some last_fetched =>
            if (now - last_fetched) / 86400 > force_refresh_days
            then acc.2.2.insert node.id else acc.2.2
        | none => acc.2.2
      (acc.1, rank_changed, stale)

/-- `detect_candidates(ranking_nodes, db_snapshot, force_refresh_days)`:
returns `(new_ids, rank_changed_ids, stale_ids)`.  `now` is
`datetime.now(timezone.utc)` in epoch seconds; the staleness test
`(now - last_fetched).days > force_refresh_days` becomes Nat floor division
by 86400. -/
def detect_candidates (ranking_nodes : List SummaryNode)
    (db_snapshot : List (String × SnapshotInfo)) (now force_refresh_days : Nat) :
    List String × List String × List String :=
  ranking_nodes.foldl (detectStep db_snapshot now force_refresh_days) ([], [], [])

/-- `new_ids | rank_changed_ids | stale_ids`: the candidate set driving the
detail fetches. -/
def candidateUnion (new_ids rank_changed_ids stale_ids : List String) : List String :=
  (new_ids.union rank_changed_ids).union stale_ids

/-- The resolved id a detail record upserts under:
`str(athlete_data.get('id') or athlete_data.get('worldAthleticsId'))`. -/
def waIdOf (athlete_data : List (String × Value)) : String :=
  pyStrId (pyOr (pyGet athlete_data "id") (pyGet athlete_data "worldAthleticsId"))

/-- `athlete_data.get('country', {})`, reduced to a country code:
`country.get('code') if isinstance(country, dict) else country`. -/
def countryCodeOf (athlete_data : List (String × Value)) : Value :=
  match pyGetD athlete_data "country" (Value.vobj []) with
  | Value.vobj fs => pyGet fs "code"
  | c => c

/-- The personal-best extraction of `upsert_athlete`:
`pb = athlete_data.get('personalBest') or athlete_data.get('pb')`, then
`pb.get('time') or pb.get('mark')` when `pb` is a dict. -/
def pbOf (athlete_data : List (String × Value)) : Value :=
  match pyOr (pyGet athlete_data "personalBest") (pyGet athlete_data "pb") with
  | Value.vobj fs => pyOr (pyGet fs "time") (pyGet fs "mark")
  | v => v

/-- The `profile_url` expression of `upsert_athlete`:
`f"https://worldathletics.org/athletes/{country_code}/{name.lower().replace(' ', '-')}-{wa_id}"
if name and country_code else None`.  `Except.error ()` models the
`AttributeError` Python raises when `name` is truthy but not a `str`
(`.lower()` on a non-string); it is caught by the per-athlete handler in
`sync_top_100` and counted as a db error. -/
def profileUrlE (athlete_data : List (String × Value)) : Except Unit (Option String) :=
  let name := pyGet athlete_data "name"
  let country_code := countryCodeOf athlete_data
  if truthy name && truthy country_code then
    match name with
    | Value.vstr s =>
        Except.ok (some ("https://worldathletics.org/athletes/" ++ pyStrId country_code ++
          "/" ++ (s.map Char.toLower).map (fun c => if c = ' ' then '-' else c) ++
          "-" ++ waIdOf athlete_data))
    | _ => Except.error ()
  else Except.ok none

/-- The full field tuple written by `upsert_athlete`'s INSERT / UPDATE (the
UPDATE arm sets every one of these columns from `EXCLUDED`, so the written
row does not depend on the old row).  `upd` is `updated_at`: left unset by
the plain INSERT, set to `NOW()` by the UPDATE arm. -/
def writtenRow (athlete_data : List (String × Value)) (rank : Option Int) (gender : String)
    (data_hash : String) (profile_url : Option String) (t : Nat) (upd : Option Nat) :
    AthleteRow :=
  { name := pyGet athlete_data "name",
    country := countryCodeOf athlete_data,
    gender := gender,
    personal_best := pbOf athlete_data,
    headshot_url := pyOr (pyGet athlete_data "headshotUrl") (pyGet athlete_data "headshot"),
    world_athletics_profile_url := profile_url,
    marathon_rank := rank,
    date_of_birth := pyOr (pyGet athlete_data "dob") (pyGet athlete_data "dateOfBirth"),
    sponsor := pyGet athlete_data "sponsor",
    season_best := pyGet athlete_data "seasonBest",
    age := pyGet athlete_data "age",
    raw_json := pyJsonDump false (Value.vobj athlete_data),
    data_hash := some data_hash,
    ranking_source := "world_marathon",
    last_fetched_at := some t,
    last_seen_at := some t,
    updated_at := upd }

/-- The conditional-write guard of the upsert:
`athletes.data_hash IS DISTINCT FROM EXCLUDED.data_hash OR
athletes.marathon_rank IS DISTINCT FROM EXCLUDED.marathon_rank`
(`IS DISTINCT FROM` is null-safe inequality, i.e. `≠` on `Option`). -/
def upsertGuard (row : AthleteRow) (data_hash : String) (rank : Option Int) : Bool :=
  row.data_hash != some data_hash || row.marathon_rank != rank

/-- `upsert_athlete(cur, athlete_data, rank, gender, data_hash, dry_run)`.
`t` models `NOW()`.  Returns `(new table state, cur.rowcount > 0)`.  The
INSERT fires when no row has this `world_athletics_id`; otherwise the
`ON CONFLICT ... DO UPDATE ... WHERE` arm updates the conflicting row only
when `upsertGuard` holds, so the statement is a guaranteed no-op
(`rowcount = 0`) when neither the hash nor the rank differs. -/
def upsert_athlete (db : DB) (athlete_data : List (String × Value)) (rank : Option Int)
    (gender : String) (data_hash : String) (dry_run : Bool) (t : Nat) :
    Except Unit (DB × Bool) :=
  match profileUrlE athlete_data with
  | Except.error e => Except.error e
  | Except.ok profile_url =>
      if dry_run then Except.ok (db, true)
      else
        match db.lookup (waIdOf athlete_data) with
        | none =>
            Except.ok (db ++ [(waIdOf athlete_data,
              writtenRow athlete_data rank gender data_hash profile_url t none)], true)
        | some _ =>
            Except.ok
              (db.map (fun p =>
                 if p.1 == waIdOf athlete_data && upsertGuard p.2 data_hash rank then
                   (p.1, writtenRow athlete_data rank gender data_hash profile_url t (some t))
                 else p),
               0 < db.countP (fun p => p.1 == waIdOf athlete_data && upsertGuard p.2 data_hash rank))

/-- `fetch_athlete_details(wa_client, athlete_ids)`: `fetcher i` is the
ultimate outcome of `retry_with_backoff(lambda: wa_client.get_athlete(i))`
(`none` = the fetch still failed after exhausting retries).  Failed ids are
skipped (`continue`) and are simply absent from the returned mapping; no
counter is touched here. -/
def fetch_athlete_details (fetcher : String → Option (List (String × Value)))
    (athlete_ids : List String) : List (String × List (String × Value)) :=
  athlete_ids.filterMap (fun i => (fetcher i).map (fun d => (i, d)))

/-- Clearing the currently-ranked marker: `SET last_seen_at = NULL,
updated_at = NOW()`. -/
def clearSeen (row : AthleteRow) (t : Nat) : AthleteRow :=
  { row with last_seen_at := none, updated_at := some t }

/-- The WHERE clause of `mark_dropped_athletes`: gender and ranking source
match, the id is not in the current top-100 list, the currently-ranked
marker is set, and the stored rank is non-null and ≤ 100.  (The SQL's
`world_athletics_id IS NOT NULL` is identically true here because the model
keys every row by its id.) -/
def shouldDrop (gender : String) (current_top_100_ids : List String)
    (p : String × AthleteRow) : Bool :=
  p.2.gender == gender && p.2.ranking_source == "world_marathon" &&
  !(current_top_100_ids.contains p.1) && p.2.last_seen_at.isSome &&
  (match p.2.marathon_rank with
   | some r => decide (r ≤ 100)
   | none => false)

/-- `mark_dropped_athletes(conn, current_top_100_ids, gender, dry_run)`:
clears the marker on every row matching `shouldDrop` and returns the new
table state with the affected row count (`cur.rowcount`; in dry-run mode it
only counts). -/
def mark_dropped_athletes (db : DB) (current_top_100_ids : List String) (gender : String)
    (dry_run : Bool) (t : Nat) : DB × Nat :=
  if dry_run then
    (db, db.countP (fun p => shouldDrop gender current_top_100_ids p))
  else
    (db.map (fun p =>
       if shouldDrop gender current_top_100_ids p then (p.1, clearSeen p.2 t) else p),
     db.countP (fun p => shouldDrop gender current_top_100_ids p))

/-- The run counters of `SyncStats` (`start_time` and wall-clock duration
are not modelled). -/
structure SyncStats where
  candidates_found : Nat
  new_athletes : Nat
  updated_athletes : Nat
  unchanged_athletes : Nat
  dropped_athletes : Nat
  fetch_errors : Nat
  db_errors : Nat
deriving DecidableEq

/-- `SyncStats()` as built by `__init__`: all counters zero. -/
def SyncStats.init : SyncStats := ⟨0, 0, 0, 0, 0, 0, 0⟩

/-- The JSON-serializable dictionary built by `SyncStats.summary()`
(`start_time` and `duration_seconds` omitted from the model). -/
structure StatsSummary where
  candidates_found : Nat
  new_athletes : Nat
  updated_athletes : Nat
  unchanged_athletes : Nat
  dropped_athletes : Nat
  fetch_errors : Nat
  db_errors : Nat
  success : Bool
deriving DecidableEq

/-- `SyncStats.summary()`: the counters plus
`success = (fetch_errors == 0 and db_errors == 0)`. -/
def SyncStats.summary (s : SyncStats) : StatsSummary :=
  ⟨s.candidates_found, s.new_athletes, s.updated_athletes, s.unchanged_athletes,
   s.dropped_athletes, s.fetch_errors, s.db_errors,
   s.fetch_errors == 0 && s.db_errors == 0⟩

/-- Python `rank_map.get(athlete_id)`: the stored rank option, flattened
(`None` when the id is missing). -/
def rankMapGet (rank_map : List (String × Option Int)) (athlete_id : String) : Option Int :=
  match rank_map.lookup athlete_id with
  | some r => r
  | none => none

/-- The per-athlete body of step 5 of `sync_top_100`: canonicalize, hash,
look up the rank, upsert, and bump `new_athletes` / `updated_athletes` /
`unchanged_athletes` according to the upsert result; the per-athlete
`except` turns an upsert exception into `db_errors += 1` and leaves the
table unchanged. -/
def processAthlete (rank_map : List (String × Option Int)) (new_ids : List String)
    (gender : String) (dry_run : Bool) (t : Nat) (acc : SyncStats × DB)
    (item : String × List (String × Value)) : SyncStats × DB :=
  let canonical := canonicalize_athlete item.2
  let data_hash := canonical_hash canonical
  let rank := rankMapGet rank_map item.1
  match upsert_athlete acc.2 item.2 rank gender data_hash dry_run t with
  | Except.ok (db', was_updated) =>
      if was_updated then
        if item.1 ∈ new_ids then
          ({ acc.1 with new_athletes := acc.1.new_athletes + 1 }, db')
        else
          ({ acc.1 with updated_athletes := acc.1.updated_athletes + 1 }, db')
      else
        ({ acc.1 with unchanged_athletes := acc.1.unchanged_athletes + 1 }, db')
  | Except.error _ => ({ acc.1 with db_errors := acc.1.db_errors + 1 }, acc.2)

/-- One iteration of the batch loop of `sync_top_100`: fetch the details of
the batch and process every successfully fetched athlete.  (The enclosing
`except` that does `fetch_errors += 1` only fires on cursor/commit
exceptions — `fetch_athlete_details` swallows per-id failures — and database
exceptions are not modelled, so the model has no `fetch_errors` site.) -/
def processBatch (fetcher : String → Option (List (String × Value)))
    (rank_map : List (String × Option Int)) (new_ids : List String) (gender : String)
    (dry_run : Bool) (t : Nat) (acc : SyncStats × DB) (batch : List String) :
    SyncStats × DB :=
  (fetch_athlete_details fetcher batch).foldl
    (processAthlete rank_map new_ids gender dry_run t) acc

/-- The body of `sync_top_100` for one gender (one iteration of the
`for gender, gender_name in [('M', 'men'), ('F', 'women')]` loop): fetch the
summary list (given as `ranking_nodes`), load the snapshot, detect
candidates, fetch and upsert the candidates in batches of `BATCH_SIZE = 25`,
and mark dropped athletes. -/
def sync_category (fetcher : String → Option (List (String × Value)))
    (ranking_nodes : List SummaryNode) (gender_name : String) (db0 : DB)
    (now t : Nat) (dry_run : Bool) (stats0 : SyncStats) : DB × SyncStats :=
  let athlete_ids := ranking_nodes.map (fun n => n.id)
  let rank_map := ranking_nodes.map (fun n => (n.id, n.rank))
  let db_snapshot := load_db_snapshot db0 athlete_ids
  let cands := detect_candidates ranking_nodes db_snapshot now 7
  let all_candidates := candidateUnion cands.1 cands.2.1 cands.2.2
  let stats1 := { stats0 with
    candidates_found := stats0.candidates_found + all_candidates.length }
  let res := (chunksOf 25 all_candidates).foldl
    (processBatch fetcher rank_map cands.1 gender_name dry_run t) (stats1, db0)
  let dropped := mark_dropped_athletes res.2 athlete_ids gender_name dry_run t
  (dropped.1, { res.1 with
    dropped_athletes := res.1.dropped_athletes + dropped.2 })

/-- The tail of `main()`: given the outcome of `sync_top_100` (a fatal
exception or the final stats), the pair of (stats summary written to
`sync_stats.json`, process exit code).  On success the summary is always
written, and `sys.exit(1)` fires when `fetch_errors > 0 or db_errors > 0`;
on a fatal exception nothing is written and the process exits 1. -/
def main_run (outcome : Except String SyncStats) : Option StatsSummary × Nat :=
  match outcome with
  | Except.ok stats =>
      (some stats.summary, if stats.fetch_errors > 0 || stats.db_errors > 0 then 1 else 0)
  | Except.error _ => (none, 1)

/-- The candidate list one run computes for a summary list against table
state `db0`: the union of the three sets detected over the loaded snapshot
(with the default 7-day staleness threshold), exactly as `sync_category`
builds it. -/
def runCandidates (ranking_nodes : List SummaryNode) (db0 : DB) (now : Nat) : List String :=
  let cands := detect_candidates ranking_nodes
    (load_db_snapshot db0 (ranking_nodes.map (fun n => n.id))) now 7
  candidateUnion cands.1 cands.2.1 cands.2.2

/-- A sample persisted row for concrete checks: display fields empty,
tracked by the world-marathon pipeline, with the given rank, marker,
last-fetch timestamp, hash, and gender. -/
def exampleRow (rank : Option Int) (seen fetched : Option Nat) (hash : Option String)
    (g : String) : AthleteRow :=
  { name := Value.vnull, country := Value.vnull, gender := g,
    personal_best := Value.vnull, headshot_url := Value.vnull,
    world_athletics_profile_url := none, marathon_rank := rank,
    date_of_birth := Value.vnull, sponsor := Value.vnull, season_best := Value.vnull,
    age := Value.vnull, raw_json := "", data_hash := hash,
    ranking_source := "world_marathon", last_fetched_at := fetched,
    last_seen_at := seen, updated_at := none }

/-! Helper lemmas about association lists and the candidate fold. -/

/-- Appending a row with a different key does not change a lookup. -/
theorem lookup_append_ne {β : Type} (l : List (String × β)) (k x : String) (r : β)
    (hx : x ≠ k) : (l ++ [(k, r)]).lookup x = l.lookup x := by
  induction l with
  | nil =>
      have hk : (x == k) = false := by simp [hx]
      simp [List.lookup, hk]
  | cons p l ih =>
      cases hp : x == p.1 with
      | true => simp [List.lookup, hp]
      | false => simp [List.lookup, hp, ih]

/-- Appending a row under a key that is absent makes it the lookup result. -/
theorem lookup_append_self {β : Type} (l : List (String × β)) (k : String) (r : β)
    (hnone : l.lookup k = none) : (l ++ [(k, r)]).lookup k = some r := by
  induction l with
  | nil => simp [List.lookup]
  | cons p l ih =>
      cases hp : k == p.1 with
      | true => simp [List.lookup, hp] at hnone
      | false =>
          simp only [List.lookup, hp] at hnone
          simp only [List.cons_append, List.lookup, hp]
          exact ih hnone

/-- A `none` lookup means no entry carries the key. -/
theorem lookup_none_forall {β : Type} (l : List (String × β)) (k : String)
    (hnone : l.lookup k = none) : ∀ p ∈ l, (p.1 == k) = false := by
  induction l with
  | nil => simp
  | cons p l ih =>
      cases hp : k == p.1 with
      | true => simp [List.lookup, hp] at hnone
      | false =>
          simp only [List.lookup, hp] at hnone
          intro q hq
          rcases List.mem_cons.mp hq with hq | hq
          · rw [hq]
            rw [BEq.comm] at hp
            exact hp
          · exact ih hnone q hq

/-- A key-preserving conditional rewrite of the rows does not change whether
a lookup succeeds. -/
theorem lookup_map_cond_isSome {β : Type} (l : List (String × β)) (q : String × β → Bool)
    (u : String × β → β) (x : String) :
    ((l.map (fun p => if q p then (p.1, u p) else p)).lookup x).isSome =
      ((l.lookup x).isSome) := by
  induction l with
  | nil => simp
  | cons p l ih =>
      simp only [List.map_cons]
      by_cases hq : q p = true
      · rw [if_pos hq]
        cases hp : x == p.1 with
        | true => simp [List.lookup, hp]
        | false => simp [List.lookup, hp, ih]
      · rw [if_neg hq]
        cases hp : x == p.1 with
        | true => simp [List.lookup, hp]
        | false => simp [List.lookup, hp, ih]

/-- If the rewrite condition is false on every row keyed `x`, the lookup at
`x` is untouched by the conditional rewrite. -/
theorem lookup_map_cond_false {β : Type} (l : List (String × β)) (q : String × β → Bool)
    (u : String × β → β) (x : String) (hq : ∀ r, q (x, r) = false) :
    (l.map (fun p => if q p then (p.1, u p) else p)).lookup x = l.lookup x := by
  induction l with
  | nil => simp
  | cons p l ih =>
      simp only [List.map_cons]
      by_cases hq2 : q p = true
      · have hp : (x == p.1) = false := by
          cases hbe : x == p.1 with
          | true =>
              have h1 := eq_of_beq hbe
              have hx : p = (x, p.2) := by cases p; simp_all
              rw [hx, hq p.2] at hq2
              cases hq2
          | false => rfl
        rw [if_pos hq2]
        simp [List.lookup, hp, ih]
      · rw [if_neg hq2]
        cases hp : x == p.1 with
        | true => simp [List.lookup, hp]
        | false => simp [List.lookup, hp, ih]

/-- A conditional row rewrite whose condition fails on every row is the
identity. -/
theorem map_cond_id {β : Type} (l : List (String × β)) (q : String × β → Bool)
    (u : String × β → β) (hq : ∀ p ∈ l, q p = false) :
    l.map (fun p => if q p then (p.1, u p) else p) = l := by
  induction l with
  | nil => rfl
  | cons p l ih =>
      have hp := hq p (by simp)
      simp only [List.map_cons]
      rw [if_neg (by simp [hp])]
      rw [ih (fun p hp2 => hq p (by simp [hp2]))]

/-- Membership in the `new_ids` component of the candidate fold. -/
theorem detect_foldl_new_mem (snap : List (String × SnapshotInfo)) (now frd : Nat) :
    ∀ (nodes : List SummaryNode) (acc : List String × List String × List String) (x : String),
      x ∈ (nodes.foldl (detectStep snap now frd) acc).1 ↔
        x ∈ acc.1 ∨ ∃ n, n ∈ nodes ∧ n.id = x ∧ snap.lookup n.id = none
  | [], acc, x => by simp
  | node :: nodes, acc, x => by
      rw [List.foldl_cons, detect_foldl_new_mem snap now frd nodes]
      cases h : snap.lookup node.id with
      | none =>
          simp only [detectStep, h, List.mem_insert_iff, List.mem_cons]
          constructor
          · rintro (⟨hx | hx⟩ | ⟨n, hn, hnx, hl⟩)
            · exact Or.inr ⟨node, Or.inl rfl, hx.symm, h⟩
            · exact Or.inl hx
            · exact Or.inr ⟨n, Or.inr hn, hnx, hl⟩
          · rintro (hx | ⟨n, hn | hn, hnx, hl⟩)
            · exact Or.inl (Or.inr hx)
            · exact Or.inl (Or.inl (hn ▸ hnx).symm)
            · exact Or.inr ⟨n, hn, hnx, hl⟩
      | some info =>
          simp only [detectStep, h, List.mem_cons]
          constructor
          · rintro (hx | ⟨n, hn, hnx, hl⟩)
            · exact Or.inl hx
            · exact Or.inr ⟨n, Or.inr hn, hnx, hl⟩
          · rintro (hx | ⟨n, hn | hn, hnx, hl⟩)
            · exact Or.inl hx
            · rw [hn] at hl
              rw [h] at hl
              cases hl
            · exact Or.inr ⟨n, hn, hnx, hl⟩

/-- Membership in the `rank_changed_ids` component of the candidate fold. -/
theorem detect_foldl_rank_mem (snap : List (String × SnapshotInfo)) (now frd : Nat) :
    ∀ (nodes : List SummaryNode) (acc : List String × List String × List String) (x : String),
      x ∈ (nodes.foldl (detectStep snap now frd) acc).2.1 ↔
        x ∈ acc.2.1 ∨ ∃ n, n ∈ nodes ∧ n.id = x ∧
          ∃ info, snap.lookup n.id = some info ∧ info.marathon_rank ≠ n.rank
  | [], acc, x => by simp
  | node :: nodes, acc, x => by
      rw [List.foldl_cons, detect_foldl_rank_mem snap now frd nodes]
      cases h : snap.lookup node.id with
      | none =>
          simp only [detectStep, h, List.mem_cons]
          constructor
          · rintro (hx | ⟨n, hn, hnx, info, hl, hr⟩)
            · exact Or.inl hx
            · exact Or.inr ⟨n, Or.inr hn, hnx, info, hl, hr⟩
          · rintro (hx | ⟨n, hn | hn, hnx, info, hl, hr⟩)
            · exact Or.inl hx
            · rw [hn, h] at hl
              cases hl
            · exact Or.inr ⟨n, hn, hnx, info, hl, hr⟩
      | some info =>
          by_cases hr : info.marathon_rank ≠ node.rank
          · simp only [detectStep, h, if_pos hr, List.mem_insert_iff, List.mem_cons]
            constructor
            · rintro (⟨hx | hx⟩ | ⟨n, hn, hnx, info2, hl, hr2⟩)
              · exact Or.inr ⟨node, Or.inl rfl, hx.symm, info, h, hr⟩
              · exact Or.inl hx
              · exact Or.inr ⟨n, Or.inr hn, hnx, info2, hl, hr2⟩
            · rintro (hx | ⟨n, hn | hn, hnx, info2, hl, hr2⟩)
              · exact Or.inl (Or.inr hx)
              · exact Or.inl (Or.inl (hn ▸ hnx).symm)
              · exact Or.inr ⟨n, hn, hnx, info2, hl, hr2⟩
          · simp only [detectStep, h, if_neg hr, List.mem_cons]
            constructor
            · rintro (hx | ⟨n, hn, hnx, info2, hl, hr2⟩)
              · exact Or.inl hx
              · exact Or.inr ⟨n, Or.inr hn, hnx, info2, hl, hr2⟩
            · rintro (hx | ⟨n, hn | hn, hnx, info2, hl, hr2⟩)
              · exact Or.inl hx
              · exfalso
                rw [hn] at hl hr2
                rw [h] at hl
                cases hl
                exact hr hr2
              · exact Or.inr ⟨n, hn, hnx, info2, hl, hr2⟩

/-- Membership in the `stale_ids` component of the candidate fold. -/
theorem detect_foldl_stale_mem (snap : List (String × SnapshotInfo)) (now frd : Nat) :
    ∀ (nodes : List SummaryNode) (acc : List String × List String × List String) (x : String),
      x ∈ (nodes.foldl (detectStep snap now frd) acc).2.2 ↔
        x ∈ acc.2.2 ∨ ∃ n, n ∈ nodes ∧ n.id = x ∧
          ∃ info, snap.lookup n.id = some info ∧
            ∃ f, info.last_fetched_at = some f ∧ (now - f) / 86400 > frd
  | [], acc, x => by simp
  | node :: nodes, acc, x => by
      rw [List.foldl_cons, detect_foldl_stale_mem snap now frd nodes]
      cases h : snap.lookup node.id with
      | none =>
          simp only [detectStep, h, List.mem_cons]
          constructor
          · rintro (hx | ⟨n, hn, hnx, info, hl, hf⟩)
            · exact Or.inl hx
            · exact Or.inr ⟨n, Or.inr hn, hnx, info, hl, hf⟩
          · rintro (hx | ⟨n, hn | hn, hnx, info, hl, hf⟩)
            · exact Or.inl hx
            · rw [hn, h] at hl
              cases hl
            · exact Or.inr ⟨n, hn, hnx, info, hl, hf⟩
      | some info =>
          cases hf : info.last_fetched_at with
          | none =>
              simp only [detectStep, h, hf, List.mem_cons]
              constructor
              · rintro (hx | ⟨n, hn, hnx, info2, hl, f, hf2, hd⟩)
                · exact Or.inl hx
                · exact Or.inr ⟨n, Or.inr hn, hnx, info2, hl, f, hf2, hd⟩
              · rintro (hx | ⟨n, hn | hn, hnx, info2, hl, f, hf2, hd⟩)
                · exact Or.inl hx
                · exfalso
                  rw [hn, h] at hl
                  cases hl
                  rw [hf] at hf2
                  cases hf2
                · exact Or.inr ⟨n, hn, hnx, info2, hl, f, hf2, hd⟩
          | some lf =>
              by_cases hd : (now - lf) / 86400 > frd
              · simp only [detectStep, h, hf, if_pos hd, List.mem_insert_iff, List.mem_cons]
                constructor
                · rintro (⟨hx | hx⟩ | ⟨n, hn, hnx, info2, hl, f, hf2, hd2⟩)
                  · exact Or.inr ⟨node, Or.inl rfl, hx.symm, info, h, lf, hf, hd⟩
                  · exact Or.inl hx
                  · exact Or.inr ⟨n, Or.inr hn, hnx, info2, hl, f, hf2, hd2⟩
                · rintro (hx | ⟨n, hn | hn, hnx, info2, hl, f, hf2, hd2⟩)
                  · exact Or.inl (Or.inr hx)
                  · exact Or.inl (Or.inl (hn ▸ hnx).symm)
                  · exact Or.inr ⟨n, hn, hnx, info2, hl, f, hf2, hd2⟩
              · simp only [detectStep, h, hf, if_neg hd, List.mem_cons]
                constructor
                · rintro (hx | ⟨n, hn, hnx, info2, hl, f, hf2, hd2⟩)
                  · exact Or.inl hx
                  · exact Or.inr ⟨n, Or.inr hn, hnx, info2, hl, f, hf2, hd2⟩
                · rintro (hx | ⟨n, hn | hn, hnx, info2, hl, f, hf2, hd2⟩)
                  · exact Or.inl hx
                  · exfalso
                    rw [hn, h] at hl
                    cases hl
                    rw [hf] at hf2
                    cases hf2
                    exact hd hd2
                  · exact Or.inr ⟨n, hn, hnx, info2, hl, f, hf2, hd2⟩

/-- Membership in the three sets returned by `detect_candidates`:
`new_ids` holds exactly the summary ids absent from the snapshot,
`rank_changed_ids` those whose stored rank differs, and `stale_ids` those
whose last fetch is older than the threshold. -/
theorem mem_detect_candidates (nodes : List SummaryNode)
    (snap : List (String × SnapshotInfo)) (now frd : Nat) (x : String) :
    (x ∈ (detect_candidates nodes snap now frd).1 ↔
       ∃ n, n ∈ nodes ∧ n.id = x ∧ snap.lookup n.id = none) ∧
    (x ∈ (detect_candidates nodes snap now frd).2.1 ↔
       ∃ n, n ∈ nodes ∧ n.id = x ∧
         ∃ info, snap.lookup n.id = some info ∧ info.marathon_rank ≠ n.rank) ∧
    (x ∈ (detect_candidates nodes snap now frd).2.2 ↔
       ∃ n, n ∈ nodes ∧ n.id = x ∧
         ∃ info, snap.lookup n.id = some info ∧
           ∃ f, info.last_fetched_at = some f ∧ (now - f) / 86400 > frd) := by
  refine ⟨?_, ?_, ?_⟩
  · rw [detect_candidates, detect_foldl_new_mem]
    simp
  · rw [detect_candidates, detect_foldl_rank_mem]
    simp
  · rw [detect_candidates, detect_foldl_stale_mem]
    simp

/-- Membership in the candidate union `new | rank_changed | stale`. -/
theorem mem_candidateUnion (a b c : List String) (x : String) :
    x ∈ candidateUnion a b c ↔ x ∈ a ∨ x ∈ b ∨ x ∈ c := by
  have h : candidateUnion a b c = a ∪ b ∪ c := rfl
  rw [h, List.mem_union_iff, List.mem_union_iff, or_assoc]

/-- Characterization of the Detail Fetcher's result mapping: `(i, d)` is in
the result exactly when `i` was asked for and its (retry-wrapped) fetch
ultimately succeeded with `d`. -/
theorem mem_fetch_athlete_details (fetcher : String → Option (List (String × Value)))
    (ids : List String) (i : String) (d : List (String × Value)) :
    (i, d) ∈ fetch_athlete_details fetcher ids ↔ i ∈ ids ∧ fetcher i = some d := by
  simp only [fetch_athlete_details, List.mem_filterMap, Option.map_eq_some']
  constructor
  · rintro ⟨a, ha, d2, hf, hp⟩
    cases hp
    exact ⟨ha, hf⟩
  · rintro ⟨hi, hf⟩
    exact ⟨i, hi, d, hf, rfl⟩

/-- Every id appearing in the Detail Fetcher's result was in the requested
list and fetched successfully. -/
theorem fetch_athlete_details_sound (fetcher : String → Option (List (String × Value)))
    (ids : List String) (it : String × List (String × Value))
    (hit : it ∈ fetch_athlete_details fetcher ids) :
    it.1 ∈ ids ∧ fetcher it.1 = some it.2 := by
  cases it
  exact (mem_fetch_athlete_details fetcher ids _ _).mp hit

/-- Elements of a chunk are elements of the chunked list. -/
theorem mem_of_mem_chunksAux (n : Nat) :
    ∀ (fuel : Nat) (l : List α) (batch : List α), batch ∈ chunksAux n fuel l →
      ∀ a ∈ batch, a ∈ l
  | 0, _, batch => by simp [chunksAux]
  | fuel + 1, [], batch => by simp [chunksAux]
  | fuel + 1, x :: xs, batch => by
      intro hb a ha
      simp only [chunksAux, List.mem_cons] at hb
      rcases hb with hb | hb
      · exact List.take_subset n _ (hb ▸ ha)
      · exact List.drop_subset n _ (mem_of_mem_chunksAux n fuel _ batch hb a ha)

/-- Elements of a chunk of `chunksOf` are elements of the original list. -/
theorem mem_of_mem_chunksOf (n : Nat) (l : List α) (batch : List α)
    (hb : batch ∈ chunksOf n l) : ∀ a ∈ batch, a ∈ l :=
  mem_of_mem_chunksAux n l.length l batch hb

/-- `load_db_snapshot` agrees with the table lookup on every requested
id. -/
theorem lookup_load_db_snapshot (db : DB) (ids : List String) (x : String)
    (hx : x ∈ ids) :
    (load_db_snapshot db ids).lookup x =
      (db.lookup x).map
        (fun r => ⟨r.data_hash, r.marathon_rank, r.last_fetched_at, r.last_seen_at⟩) := by
  induction db with
  | nil => simp [load_db_snapshot]
  | cons p db ih =>
      by_cases hk : p.1 ∈ ids
      · cases hp : x == p.1 with
        | true =>
            simp only [load_db_snapshot, List.filterMap_cons, if_pos hk]
            simp [List.lookup, hp]
        | false =>
            simp only [load_db_snapshot, List.filterMap_cons, if_pos hk]
            simp only [List.lookup, hp]
            exact ih
      · have hp : (x == p.1) = false := by
          cases hbe : x == p.1 with
          | true =>
              exfalso
              have h1 := eq_of_beq hbe
              rw [← h1] at hk
              exact hk hx
          | false => rfl
        simp only [load_db_snapshot, List.filterMap_cons, if_neg hk]
        simp only [List.lookup, hp]
        exact ih

/-- The write guard is false exactly when neither the stored hash nor the
stored rank differs from the incoming ones. -/
theorem upsertGuard_eq_false (row : AthleteRow) (data_hash : String) (rank : Option Int) :
    upsertGuard row data_hash rank = false ↔
      row.data_hash = some data_hash ∧ row.marathon_rank = rank := by
  simp [upsertGuard]

/-- After a successful non-dry-run upsert, every row keyed by the record's
id stores exactly the incoming hash and rank (whether it was inserted,
updated, or already matched and was left alone). -/
theorem upsert_athlete_post (db db1 : DB) (d : List (String × Value)) (rank : Option Int)
    (g data_hash : String) (t : Nat) (b1 : Bool)
    (h : upsert_athlete db d rank g data_hash false t = Except.ok (db1, b1)) :
    ∀ p ∈ db1, (p.1 == waIdOf d) = true →
      p.2.data_hash = some data_hash ∧ p.2.marathon_rank = rank := by
  rw [upsert_athlete] at h
  cases hpe : profileUrlE d with
  | error e => rw [hpe] at h; cases h
  | ok pu =>
      rw [hpe] at h
      simp only [Bool.false_eq_true, if_false] at h
      cases hlk : db.lookup (waIdOf d) with
      | none =>
          rw [hlk] at h
          cases h
          intro p hp hkey
          rcases List.mem_append.mp hp with hp | hp
          · have := lookup_none_forall db (waIdOf d) hlk p hp
            rw [this] at hkey
            cases hkey
          · rcases List.mem_singleton.mp hp with rfl
            exact ⟨rfl, rfl⟩
      | some r0 =>
          rw [hlk] at h
          cases h
          intro p hp hkey
          rcases List.mem_map.mp hp with ⟨p0, hp0, himg⟩
          by_cases hhit : (p0.1 == waIdOf d && upsertGuard p0.2 data_hash rank) = true
          · rw [if_pos hhit] at himg
            rw [← himg]
            exact ⟨rfl, rfl⟩
          · rw [if_neg hhit] at himg
            rw [← himg] at hkey ⊢
            have hguard : upsertGuard p0.2 data_hash rank = false := by
              cases hg : upsertGuard p0.2 data_hash rank with
              | true => exact absurd (by rw [hkey, hg]; rfl) hhit
              | false => rfl
            exact (upsertGuard_eq_false p0.2 data_hash rank).mp hguard

/-- A successful non-dry-run upsert leaves the record's id present in the
table. -/
theorem upsert_athlete_lookup_isSome (db db1 : DB) (d : List (String × Value))
    (rank : Option Int) (g data_hash : String) (t : Nat) (b1 : Bool)
    (h : upsert_athlete db d rank g data_hash false t = Except.ok (db1, b1)) :
    (db1.lookup (waIdOf d)).isSome = true := by
  rw [upsert_athlete] at h
  cases hpe : profileUrlE d with
  | error e => rw [hpe] at h; cases h
  | ok pu =>
      rw [hpe] at h
      simp only [Bool.false_eq_true, if_false] at h
      cases hlk : db.lookup (waIdOf d) with
      | none =>
          rw [hlk] at h
          cases h
          rw [lookup_append_self db (waIdOf d) _ hlk]
          rfl
      | some r0 =>
          rw [hlk] at h
          cases h
          rw [lookup_map_cond_isSome]
          rw [hlk]
          rfl

/-- An upsert never touches rows keyed by a different id (in particular a
dry-run or failing upsert touches nothing). -/
theorem upsert_lookup_other (db db1 : DB) (d : List (String × Value)) (rank : Option Int)
    (g data_hash : String) (dry_run : Bool) (t : Nat) (b1 : Bool) (x : String)
    (hx : x ≠ waIdOf d)
    (h : upsert_athlete db d rank g data_hash dry_run t = Except.ok (db1, b1)) :
    db1.lookup x = db.lookup x := by
  rw [upsert_athlete] at h
  cases hpe : profileUrlE d with
  | error e => rw [hpe] at h; cases h
  | ok pu =>
      rw [hpe] at h
      cases dry_run with
      | true =>
          simp only [if_true] at h
          cases h
          rfl
      | false =>
          simp only [Bool.false_eq_true, if_false] at h
          cases hlk : db.lookup (waIdOf d) with
          | none =>
              rw [hlk] at h
              cases h
              exact lookup_append_ne db (waIdOf d) x _ hx
          | some r0 =>
              rw [hlk] at h
              cases h
              refine lookup_map_cond_false db _ _ x (fun r => ?_)
              have hxk : (x == waIdOf d) = false := by
                cases hbe : x == waIdOf d with
                | true => exact absurd (eq_of_beq hbe) hx
                | false => rfl
              simp [hxk]

/-- Processing one fetched athlete never touches rows keyed by an id other
than the record's own resolved id. -/
theorem processAthlete_lookup (rank_map : List (String × Option Int)) (new_ids : List String)
    (g : String) (dr : Bool) (t : Nat) (acc : SyncStats × DB)
    (item : String × List (String × Value)) (x : String) (hx : x ≠ waIdOf item.2) :
    ((processAthlete rank_map new_ids g dr t acc item).2).lookup x = (acc.2).lookup x := by
  rw [processAthlete]
  cases hu : upsert_athlete acc.2 item.2 (rankMapGet rank_map item.1) g
      (canonical_hash (canonicalize_athlete item.2)) dr t with
  | error e => simp only [hu]
  | ok pr =>
      obtain ⟨db', was⟩ := pr
      have hpres := upsert_lookup_other acc.2 db' item.2 (rankMapGet rank_map item.1) g
        (canonical_hash (canonicalize_athlete item.2)) dr t was x hx hu
      simp only [hu]
      cases was with
      | true =>
          by_cases hmem : item.1 ∈ new_ids
          · simp only [if_pos hmem, if_true]
            exact hpres
          · simp only [if_neg hmem, if_true]
            exact hpres
      | false => simpa using hpres

/-- Processing one fetched athlete never changes `fetch_errors`. -/
theorem processAthlete_fetch_errors (rank_map : List (String × Option Int))
    (new_ids : List String) (g : String) (dr : Bool) (t : Nat) (acc : SyncStats × DB)
    (item : String × List (String × Value)) :
    (processAthlete rank_map new_ids g dr t acc item).1.fetch_errors = acc.1.fetch_errors := by
  rw [processAthlete]
  cases hu : upsert_athlete acc.2 item.2 (rankMapGet rank_map item.1) g
      (canonical_hash (canonicalize_athlete item.2)) dr t with
  | error e => rfl
  | ok pr =>
      obtain ⟨db', was⟩ := pr
      cases was with
      | true =>
          by_cases hmem : item.1 ∈ new_ids
          · simp [if_pos hmem]
          · simp [if_neg hmem]
      | false => rfl

/-- The per-athlete fold never touches rows keyed by an id that no
processed record resolves to. -/
theorem foldl_processAthlete_lookup (rank_map : List (String × Option Int))
    (new_ids : List String) (g : String) (dr : Bool) (t : Nat) (x : String) :
    ∀ (items : List (String × List (String × Value))) (acc : SyncStats × DB),
      (∀ it ∈ items, x ≠ waIdOf it.2) →
      ((items.foldl (processAthlete rank_map new_ids g dr t) acc).2).lookup x =
        (acc.2).lookup x
  | [], acc, _ => rfl
  | item :: items, acc, h => by
      rw [List.foldl_cons]
      rw [foldl_processAthlete_lookup rank_map new_ids g dr t x items _
        (fun it hit => h it (List.mem_cons_of_mem item hit))]
      exact processAthlete_lookup rank_map new_ids g dr t acc item x (h item (by simp))

/-- `fetch_errors` is invariant under the per-athlete fold. -/
theorem foldl_processAthlete_fetch_errors (rank_map : List (String × Option Int))
    (new_ids : List String) (g : String) (dr : Bool) (t : Nat) :
    ∀ (items : List (String × List (String × Value))) (acc : SyncStats × DB),
      ((items.foldl (processAthlete rank_map new_ids g dr t) acc).1).fetch_errors =
        acc.1.fetch_errors
  | [], acc => rfl
  | item :: items, acc => by
      rw [List.foldl_cons]
      rw [foldl_processAthlete_fetch_errors rank_map new_ids g dr t items]
      exact processAthlete_fetch_errors rank_map new_ids g dr t acc item

/-- The batch fold never touches rows keyed by `x` when no successfully
fetched record of any batch resolves to `x`. -/
theorem foldl_processBatch_lookup (fetcher : String → Option (List (String × Value)))
    (rank_map : List (String × Option Int)) (new_ids : List String) (g : String)
    (dr : Bool) (t : Nat) (x : String) :
    ∀ (batches : List (List String)) (acc : SyncStats × DB),
      (∀ b ∈ batches, ∀ i ∈ b, ∀ d, fetcher i = some d → x ≠ waIdOf d) →
      ((batches.foldl (processBatch fetcher rank_map new_ids g dr t) acc).2).lookup x =
        (acc.2).lookup x
  | [], acc, _ => rfl
  | b :: batches, acc, h => by
      rw [List.foldl_cons]
      rw [foldl_processBatch_lookup fetcher rank_map new_ids g dr t x batches _
        (fun b2 hb2 => h b2 (List.mem_cons_of_mem b hb2))]
      rw [processBatch]
      refine foldl_processAthlete_lookup rank_map new_ids g dr t x _ acc (fun it hit => ?_)
      have hs := fetch_athlete_details_sound fetcher b it hit
      exact h b (by simp) it.1 hs.1 it.2 hs.2

/-- `fetch_errors` is invariant under the batch fold. -/
theorem foldl_processBatch_fetch_errors (fetcher : String → Option (List (String × Value)))
    (rank_map : List (String × Option Int)) (new_ids : List String) (g : String)
    (dr : Bool) (t : Nat) :
    ∀ (batches : List (List String)) (acc : SyncStats × DB),
      ((batches.foldl (processBatch fetcher rank_map new_ids g dr t) acc).1).fetch_errors =
        acc.1.fetch_errors
  | [], acc => rfl
  | b :: batches, acc => by
      rw [List.foldl_cons]
      rw [foldl_processBatch_fetch_errors fetcher rank_map new_ids g dr t batches]
      rw [processBatch]
      exact foldl_processAthlete_fetch_errors rank_map new_ids g dr t _ acc

/-- An id in the current top-100 list never satisfies the drop clause,
whatever its row holds. -/
theorem shouldDrop_mem_false (g : String) (ids : List String) (x : String) (r : AthleteRow)
    (hx : x ∈ ids) : shouldDrop g ids (x, r) = false := by
  have hc : ids.contains x = true := List.elem_eq_true_of_mem hx
  simp only [shouldDrop, hc, Bool.not_true, Bool.and_false, Bool.false_and]

/-- The Drop Marker leaves every row keyed by an id of the current summary
list untouched. -/
theorem mark_dropped_lookup_mem (db : DB) (ids : List String) (g : String) (dr : Bool)
    (t : Nat) (x : String) (hx : x ∈ ids) :
    ((mark_dropped_athletes db ids g dr t).1).lookup x = db.lookup x := by
  rw [mark_dropped_athletes]
  cases dr with
  | true => simp
  | false =>
      simp only [Bool.false_eq_true, if_false]
      exact lookup_map_cond_false db _ _ x (fun r => shouldDrop_mem_false g ids x r hx)

/-- A run leaves the row of an id of the current summary list untouched
when no successfully fetched candidate record resolves to that id. -/
theorem sync_category_lookup_preserved (fetcher : String → Option (List (String × Value)))
    (nodes : List SummaryNode) (g : String) (db0 : DB) (now t : Nat) (stats0 : SyncStats)
    (x : String) (hsum : x ∈ nodes.map (fun n => n.id))
    (hgood : ∀ i ∈ runCandidates nodes db0 now, ∀ d, fetcher i = some d → x ≠ waIdOf d) :
    ((sync_category fetcher nodes g db0 now t false stats0).1).lookup x = db0.lookup x := by
  rw [sync_category]
  dsimp only
  rw [mark_dropped_lookup_mem _ _ _ _ _ x hsum]
  exact foldl_processBatch_lookup fetcher _ _ g false t x _ _
    (fun b hb i hi d hf => hgood i (mem_of_mem_chunksOf 25 _ b hb i hi) d hf)

/-- A run never changes `fetch_errors` (the only increment site in the
source is the batch-level exception handler, which fires on cursor/commit
exceptions, not on per-id fetch failures). -/
theorem sync_category_fetch_errors (fetcher : String → Option (List (String × Value)))
    (nodes : List SummaryNode) (g : String) (db0 : DB) (now t : Nat) (dr : Bool)
    (stats0 : SyncStats) :
    ((sync_category fetcher nodes g db0 now t dr stats0).2).fetch_errors =
      stats0.fetch_errors := by
  rw [sync_category]
  dsimp only
  rw [foldl_processBatch_fetch_errors]

/-! The claims. -/

/-- C1 (counterexample): the three candidate sets are NOT pairwise
disjoint.  For the summary `[{id: "1", rank: 2}]` against a snapshot where
"1" is stored with rank 1 and a last fetch 10 days old, `detect_candidates`
puts "1" in `rank_changed_ids` AND in `stale_ids`: the staleness check runs
independently of the rank check, so there is no `rank_changed > stale`
precedence. -/
theorem detect_candidates_disjoint_cex :
    "1" ∈ (detect_candidates [⟨"1", some 2⟩]
        [("1", ⟨some "h", some 1, some 0, some 0⟩)] 864000 7).2.1 ∧
    "1" ∈ (detect_candidates [⟨"1", some 2⟩]
        [("1", ⟨some "h", some 1, some 0, some 0⟩)] 864000 7).2.2 := by
  decide

/-- C1 (amended): `new_ids` is disjoint from both `rank_changed_ids` and
`stale_ids` (an id counted new — absent from the snapshot — is never also
counted rank-changed or stale), but `rank_changed_ids` and `stale_ids` may
overlap when an id's rank changed and its data is stale; the candidate set
is the deduplicated union, so each id is still fetched once. -/
theorem detect_candidates_new_disjoint (nodes : List SummaryNode)
    (snap : List (String × SnapshotInfo)) (now frd : Nat) (x : String)
    (hx : x ∈ (detect_candidates nodes snap now frd).1) :
    x ∉ (detect_candidates nodes snap now frd).2.1 ∧
    x ∉ (detect_candidates nodes snap now frd).2.2 := by
  obtain ⟨n, hn, hnx, hnone⟩ := ((mem_detect_candidates nodes snap now frd x).1).mp hx
  rw [hnx] at hnone
  constructor
  · intro hr
    obtain ⟨n2, hn2, hn2x, info, hlk, hne⟩ :=
      ((mem_detect_candidates nodes snap now frd x).2.1).mp hr
    rw [hn2x, hnone] at hlk
    cases hlk
  · intro hs
    obtain ⟨n2, hn2, hn2x, info, hlk, hst⟩ :=
      ((mem_detect_candidates nodes snap now frd x).2.2).mp hs
    rw [hn2x, hnone] at hlk
    cases hlk

/-- C1 (witness): a new id is in `new_ids` and in neither other set. -/
theorem detect_candidates_new_disjoint_witness :
    "2" ∈ (detect_candidates [⟨"2", some 1⟩] [] 0 7).1 ∧
    ("2" ∉ (detect_candidates [⟨"2", some 1⟩] [] 0 7).2.1 ∧
     "2" ∉ (detect_candidates [⟨"2", some 1⟩] [] 0 7).2.2) :=
  ⟨by decide, detect_candidates_new_disjoint [⟨"2", some 1⟩] [] 0 7 "2" (by decide)⟩

/-- C9: an id present in the summary whose snapshot record has a null
`last_fetched_at` and an unchanged rank lands in none of the three
candidate sets — the staleness branch requires a non-null timestamp
(`if last_fetched:`), so such an id is never considered stale and its
details are not re-fetched (it is not in the candidate union driving the
detail fetches). -/
theorem null_last_fetched_not_candidate (nodes : List SummaryNode)
    (snap : List (String × SnapshotInfo)) (now frd : Nat) (node : SummaryNode)
    (info : SnapshotInfo)
    (hnd : (nodes.map (fun n => n.id)).Nodup)
    (hmem : node ∈ nodes)
    (hlk : snap.lookup node.id = some info)
    (hlf : info.last_fetched_at = none)
    (hrk : info.marathon_rank = node.rank) :
    node.id ∉ (detect_candidates nodes snap now frd).1 ∧
    node.id ∉ (detect_candidates nodes snap now frd).2.1 ∧
    node.id ∉ (detect_candidates nodes snap now frd).2.2 ∧
    node.id ∉ candidateUnion (detect_candidates nodes snap now frd).1
      (detect_candidates nodes snap now frd).2.1
      (detect_candidates nodes snap now frd).2.2 := by
  have hinj : ∀ x ∈ nodes, ∀ y ∈ nodes, x.id = y.id → x = y := by
    intro x hx y hy hxy
    exact List.inj_on_of_nodup_map hnd hx hy hxy
  have hnew : node.id ∉ (detect_candidates nodes snap now frd).1 := by
    intro hx
    obtain ⟨n, hn, hnx, hnone⟩ := ((mem_detect_candidates nodes snap now frd node.id).1).mp hx
    rw [hnx, hlk] at hnone
    cases hnone
  have hrc : node.id ∉ (detect_candidates nodes snap now frd).2.1 := by
    intro hx
    obtain ⟨n, hn, hnx, info2, hlk2, hne⟩ :=
      ((mem_detect_candidates nodes snap now frd node.id).2.1).mp hx
    have hnn : n = node := hinj n hn node hmem hnx
    rw [hnn, hlk] at hlk2
    cases hlk2
    rw [hnn] at hne
    exact hne hrk
  have hst : node.id ∉ (detect_candidates nodes snap now frd).2.2 := by
    intro hx
    obtain ⟨n, hn, hnx, info2, hlk2, f, hf, hd⟩ :=
      ((mem_detect_candidates nodes snap now frd node.id).2.2).mp hx
    rw [hnx, hlk] at hlk2
    cases hlk2
    rw [hlf] at hf
    cases hf
  refine ⟨hnew, hrc, hst, ?_⟩
  intro hx
  rcases (mem_candidateUnion _ _ _ _).mp hx with h | h | h
  · exact hnew h
  · exact hrc h
  · exact hst h

/-- C9 (witness). -/
theorem null_last_fetched_not_candidate_witness :
    ((([⟨"A", some 3⟩] : List SummaryNode).map (fun n => n.id)).Nodup ∧
     (⟨"A", some 3⟩ : SummaryNode) ∈ ([⟨"A", some 3⟩] : List SummaryNode) ∧
     ([("A", (⟨some "h", some 3, none, some 5⟩ : SnapshotInfo))].lookup
        (SummaryNode.mk "A" (some 3)).id = some ⟨some "h", some 3, none, some 5⟩) ∧
     (⟨some "h", some 3, none, some 5⟩ : SnapshotInfo).last_fetched_at = none ∧
     (⟨some "h", some 3, none, some 5⟩ : SnapshotInfo).marathon_rank =
       (SummaryNode.mk "A" (some 3)).rank) ∧
    ((SummaryNode.mk "A" (some 3)).id ∉
       (detect_candidates [⟨"A", some 3⟩] [("A", ⟨some "h", some 3, none, some 5⟩)] 99 7).1 ∧
     (SummaryNode.mk "A" (some 3)).id ∉
       (detect_candidates [⟨"A", some 3⟩] [("A", ⟨some "h", some 3, none, some 5⟩)] 99 7).2.1 ∧
     (SummaryNode.mk "A" (some 3)).id ∉
       (detect_candidates [⟨"A", some 3⟩] [("A", ⟨some "h", some 3, none, some 5⟩)] 99 7).2.2 ∧
     (SummaryNode.mk "A" (some 3)).id ∉ candidateUnion
       (detect_candidates [⟨"A", some 3⟩] [("A", ⟨some "h", some 3, none, some 5⟩)] 99 7).1
       (detect_candidates [⟨"A", some 3⟩] [("A", ⟨some "h", some 3, none, some 5⟩)] 99 7).2.1
       (detect_candidates [⟨"A", some 3⟩] [("A", ⟨some "h", some 3, none, some 5⟩)] 99 7).2.2) :=
  ⟨⟨by decide, by decide, by decide, by decide, by decide⟩,
   null_last_fetched_not_candidate [⟨"A", some 3⟩] [("A", ⟨some "h", some 3, none, some 5⟩)]
     99 7 ⟨"A", some 3⟩ ⟨some "h", some 3, none, some 5⟩
     (by decide) (by decide) (by decide) (by decide) (by decide)⟩

/-- C10: every id in any of the three candidate sets is the id of a summary
node, so the candidate union — the set of ids whose details the run fetches
— is a subset of the current ranked ids. -/
theorem detect_candidates_subset_summary (nodes : List SummaryNode)
    (snap : List (String × SnapshotInfo)) (db0 : DB) (now frd : Nat) (x : String)
    (hx : x ∈ (detect_candidates nodes snap now frd).1 ∨
          x ∈ (detect_candidates nodes snap now frd).2.1 ∨
          x ∈ (detect_candidates nodes snap now frd).2.2) :
    x ∈ nodes.map (fun n => n.id) ∧
    (∀ y ∈ runCandidates nodes db0 now, y ∈ nodes.map (fun n => n.id)) := by
  constructor
  · rcases hx with h | h | h
    · obtain ⟨n, hn, hnx, _⟩ := ((mem_detect_candidates nodes snap now frd x).1).mp h
      exact List.mem_map.mpr ⟨n, hn, hnx⟩
    · obtain ⟨n, hn, hnx, _⟩ := ((mem_detect_candidates nodes snap now frd x).2.1).mp h
      exact List.mem_map.mpr ⟨n, hn, hnx⟩
    · obtain ⟨n, hn, hnx, _⟩ := ((mem_detect_candidates nodes snap now frd x).2.2).mp h
      exact List.mem_map.mpr ⟨n, hn, hnx⟩
  · intro y hy
    rcases (mem_candidateUnion _ _ _ _).mp hy with h | h | h
    · obtain ⟨n, hn, hnx, _⟩ := ((mem_detect_candidates nodes _ now 7 y).1).mp h
      exact List.mem_map.mpr ⟨n, hn, hnx⟩
    · obtain ⟨n, hn, hnx, _⟩ := ((mem_detect_candidates nodes _ now 7 y).2.1).mp h
      exact List.mem_map.mpr ⟨n, hn, hnx⟩
    · obtain ⟨n, hn, hnx, _⟩ := ((mem_detect_candidates nodes _ now 7 y).2.2).mp h
      exact List.mem_map.mpr ⟨n, hn, hnx⟩

/-- C10 (witness). -/
theorem detect_candidates_subset_summary_witness :
    ("9" ∈ (detect_candidates [⟨"9", some 4⟩] [] 0 7).1 ∨
     "9" ∈ (detect_candidates [⟨"9", some 4⟩] [] 0 7).2.1 ∨
     "9" ∈ (detect_candidates [⟨"9", some 4⟩] [] 0 7).2.2) ∧
    ("9" ∈ ([⟨"9", some 4⟩] : List SummaryNode).map (fun n => n.id) ∧
     (∀ y ∈ runCandidates [⟨"9", some 4⟩] [] 0,
        y ∈ ([⟨"9", some 4⟩] : List SummaryNode).map (fun n => n.id))) :=
  ⟨Or.inl (by decide),
   detect_candidates_subset_summary [⟨"9", some 4⟩] [] [] 0 7 "9" (Or.inl (by decide))⟩

/-- The retry loop only consults attempts `attempt ≤ i < attempt + remaining`. -/
theorem retryLoop_congr {E A : Type} (f f2 : Nat → Except E A) (ib : Nat) :
    ∀ (remaining attempt : Nat),
      (∀ i, attempt ≤ i → i < attempt + remaining → f i = f2 i) →
      retryLoop f ib attempt remaining = retryLoop f2 ib attempt remaining
  | 0, attempt, _ => rfl
  | remaining + 1, attempt, h => by
      have h0 : f attempt = f2 attempt :=
        h attempt (Nat.le_refl _) (by omega)
      rw [retryLoop, retryLoop, h0]
      cases f2 attempt with
      | ok a => rfl
      | error e =>
          dsimp only
          by_cases hr : remaining = 0
          · rw [if_pos hr, if_pos hr]
          · rw [if_neg hr, if_neg hr]
            rw [retryLoop_congr f f2 ib remaining (attempt + 1)
              (fun i hi1 hi2 => h i (by omega) (by omega))]

/-- Under an always-failing operation, the retry loop performs exactly
`remaining` attempts, sleeps `ib * 2 ^ attempt` before each retry (so
`remaining - 1` sleeps), and re-raises the last attempt's error. -/
theorem retryLoop_all_fail {E A : Type} (f : Nat → Except E A) (err : Nat → E) (ib : Nat)
    (hfail : ∀ i, f i = Except.error (err i)) :
    ∀ (remaining attempt : Nat), 0 < remaining →
      retryLoop f ib attempt remaining =
        (some (Except.error (err (attempt + remaining - 1))),
         (List.range (remaining - 1)).map (fun i => ib * 2 ^ (attempt + i)))
  | 0, _, h => absurd h (by omega)
  | 1, attempt, _ => by
      rw [retryLoop, hfail attempt]
      simp
  | remaining + 2, attempt, _ => by
      rw [retryLoop, hfail attempt]
      dsimp only
      rw [if_neg (by omega : ¬ remaining + 1 = 0)]
      rw [retryLoop_all_fail f err ib hfail (remaining + 1) (attempt + 1) (by omega)]
      refine congrArg₂ Prod.mk (by simp; congr 1; omega) ?_
      rw [show remaining + 2 - 1 = remaining + 1 from rfl,
        show remaining + 1 - 1 = remaining from rfl]
      rw [List.range_succ_eq_map]
      rw [List.map_cons, List.map_map]
      refine congrArg₂ List.cons (by simp) ?_
      refine List.map_congr_left (fun i _ => ?_)
      simp [Function.comp]
      omega

/-- C5 (amended): `retry_with_backoff` makes at most `max_retries = 5`
attempts (its outcome only depends on the first five attempt outcomes),
sleeps `initial_backoff * 2 ** attempt` between consecutive attempts, and —
because 5 attempts have only 4 gaps — with the default 2-second initial
backoff the performed wait sequence is 2s, 4s, 8s, 16s (the 32-second value
of the spec's sequence is never slept: the fifth failure is re-raised to the
caller instead). -/
theorem retry_with_backoff_spec (E A : Type) (f f2 : Nat → Except E A) (err : Nat → E)
    (ib : Nat)
    (hagree : ∀ i, i < 5 → f i = f2 i)
    (hfail : ∀ i, f i = Except.error (err i)) :
    retry_with_backoff f 5 ib = retry_with_backoff f2 5 ib ∧
    retry_with_backoff f 5 ib =
      (some (Except.error (err 4)), (List.range 4).map (fun i => ib * 2 ^ i)) ∧
    retry_with_backoff f 5 2 = (some (Except.error (err 4)), [2, 4, 8, 16]) := by
  refine ⟨?_, ?_, ?_⟩
  · exact retryLoop_congr f f2 ib 5 0 (fun i _ hi2 => hagree i (by omega))
  · rw [retry_with_backoff, retryLoop_all_fail f err ib hfail 5 0 (by omega)]
    simp
  · rw [retry_with_backoff, retryLoop_all_fail f err 2 hfail 5 0 (by omega)]
    rfl

/-- C5 (witness). -/
theorem retry_with_backoff_spec_witness :
    ((∀ i : Nat, i < 5 → (fun _ : Nat => (Except.error "e" : Except String Unit)) i =
        (fun j : Nat => if j < 5 then Except.error "e" else Except.ok ()) i) ∧
     (∀ i : Nat, (fun _ : Nat => (Except.error "e" : Except String Unit)) i =
        Except.error ((fun _ : Nat => "e") i))) ∧
    (retry_with_backoff (fun _ => (Except.error "e" : Except String Unit)) 5 3 =
       retry_with_backoff (fun j => if j < 5 then Except.error "e" else Except.ok ()) 5 3 ∧
     retry_with_backoff (fun _ => (Except.error "e" : Except String Unit)) 5 3 =
       (some (Except.error "e"), (List.range 4).map (fun i => 3 * 2 ^ i)) ∧
     retry_with_backoff (fun _ => (Except.error "e" : Except String Unit)) 5 2 =
       (some (Except.error "e"), [2, 4, 8, 16])) :=
  ⟨⟨fun i hi => by simp only [if_pos hi], fun i => rfl⟩,
   retry_with_backoff_spec String Unit (fun _ => Except.error "e")
     (fun j => if j < 5 then Except.error "e" else Except.ok ()) (fun _ => "e") 3
     (fun i hi => by simp only [if_pos hi]) (fun i => rfl)⟩

/-- C5 (counterexample): with the default `max_retries = 5` and
`initial_backoff = 2`, an always-failing operation produces the wait trace
[2, 4, 8, 16] — four waits, not the claimed five-wait sequence
[2, 4, 8, 16, 32] — and then propagates the failure. -/
theorem retry_backoff_wait_sequence_cex :
    retry_with_backoff (fun _ => (Except.error "boom" : Except String Unit)) 5 2 =
      (some (Except.error "boom"), [2, 4, 8, 16]) ∧
    ([2, 4, 8, 16] : List Nat) ≠ [2, 4, 8, 16, 32] := by
  exact ⟨rfl, by decide⟩

/-- C8 (amended): every invocation in which the sync completes without a
fatal exception emits the stats summary, and the process exits non-zero
whenever `fetch_errors` or `db_errors` is non-zero; a fatal exception also
exits non-zero, but then no stats summary is emitted. -/
theorem main_run_spec (s : SyncStats) (e : String)
    (herr : 0 < s.fetch_errors ∨ 0 < s.db_errors) :
    (main_run (Except.ok s)).1 = some s.summary ∧
    (main_run (Except.ok s)).2 = 1 ∧
    main_run (Except.error e) = (none, 1) := by
  refine ⟨rfl, ?_, rfl⟩
  show (if s.fetch_errors > 0 || s.db_errors > 0 then 1 else 0) = 1
  rw [if_pos]
  rcases herr with h | h
  · simp [h]
  · simp [h]

/-- C8 (witness). -/
theorem main_run_spec_witness :
    (0 < (⟨0, 0, 0, 0, 0, 1, 0⟩ : SyncStats).fetch_errors ∨
     0 < (⟨0, 0, 0, 0, 0, 1, 0⟩ : SyncStats).db_errors) ∧
    ((main_run (Except.ok ⟨0, 0, 0, 0, 0, 1, 0⟩)).1 =
       some (⟨0, 0, 0, 0, 0, 1, 0⟩ : SyncStats).summary ∧
     (main_run (Except.ok ⟨0, 0, 0, 0, 0, 1, 0⟩)).2 = 1 ∧
     main_run (Except.error "e") = (none, 1)) :=
  ⟨Or.inl (by decide), main_run_spec ⟨0, 0, 0, 0, 0, 1, 0⟩ "e" (Or.inl (by decide))⟩

/-- C8 (counterexample): on a fatal exception the run does NOT emit the
stats summary — `main` logs the error and exits 1 without writing
`sync_stats.json` — so "every invocation ends by emitting the stats
summary" fails on this outcome, while the exit code is still non-zero. -/
theorem main_no_summary_on_fatal_cex :
    (main_run (Except.error "DATABASE_URL environment variable not set")).1 = none ∧
    (main_run (Except.error "DATABASE_URL environment variable not set")).2 = 1 :=
  ⟨rfl, rfl⟩

/-- C2: the conditional upsert is idempotent.  If applying a DetailRecord
with a given rank and content hash succeeds (dry_run false), then applying
the same record, rank, and hash again — at any later `NOW()` — is a
guaranteed no-op: the `WHERE data_hash IS DISTINCT FROM EXCLUDED.data_hash
OR marathon_rank IS DISTINCT FROM EXCLUDED.marathon_rank` guard fails on
every row carrying the record's id, so the statement modifies nothing
(`rowcount = 0`, returns false) and the table state is unchanged. -/
theorem upsert_athlete_idempotent (db db1 : DB) (d : List (String × Value))
    (rank : Option Int) (g data_hash : String) (t1 t2 : Nat) (b1 : Bool)
    (h1 : upsert_athlete db d rank g data_hash false t1 = Except.ok (db1, b1)) :
    upsert_athlete db1 d rank g data_hash false t2 = Except.ok (db1, false) := by
  have hpost := upsert_athlete_post db db1 d rank g data_hash t1 b1 h1
  have hsome := upsert_athlete_lookup_isSome db db1 d rank g data_hash t1 b1 h1
  rw [upsert_athlete] at h1 ⊢
  cases hpe : profileUrlE d with
  | error e => rw [hpe] at h1; cases h1
  | ok pu =>
      dsimp only
      simp only [Bool.false_eq_true, if_false]
      cases hlk : db1.lookup (waIdOf d) with
      | none =>
          rw [hlk] at hsome
          cases hsome
      | some r1 =>
          have hcond : ∀ p ∈ db1,
              (p.1 == waIdOf d && upsertGuard p.2 data_hash rank) = false := by
            intro p hp
            cases hk : p.1 == waIdOf d with
            | false => simp [hk]
            | true =>
                have hfields := hpost p hp hk
                have hg : upsertGuard p.2 data_hash rank = false :=
                  (upsertGuard_eq_false _ _ _).mpr hfields
                simp [hk, hg]
          have hmap : List.map (fun p =>
                if (p.1 == waIdOf d && upsertGuard p.2 data_hash rank) = true then
                  (p.1, writtenRow d rank g data_hash pu t2 (some t2))
                else p) db1 = db1 :=
            map_cond_id db1
              (fun p => p.1 == waIdOf d && upsertGuard p.2 data_hash rank)
              (fun _ => writtenRow d rank g data_hash pu t2 (some t2)) hcond
          have hcount : db1.countP
              (fun p => p.1 == waIdOf d && upsertGuard p.2 data_hash rank) = 0 := by
            rw [List.countP_eq_zero]
            intro p hp
            simp [hcond p hp]
          dsimp only
          rw [hmap, hcount]
          rfl

/-- C2 (witness): inserting a one-field record `{"id": "X"}` and applying
the identical upsert again. -/
theorem upsert_athlete_idempotent_witness :
    upsert_athlete [] [("id", Value.vstr "X")] (some 1) "men" "h" false 0 =
      Except.ok ([("X",
        { name := Value.vnull, country := Value.vnull, gender := "men",
          personal_best := Value.vnull, headshot_url := Value.vnull,
          world_athletics_profile_url := none, marathon_rank := some 1,
          date_of_birth := Value.vnull, sponsor := Value.vnull,
          season_best := Value.vnull, age := Value.vnull,
          raw_json := "\x7b\"id\": \"X\"\x7d", data_hash := some "h",
          ranking_source := "world_marathon", last_fetched_at := some 0,
          last_seen_at := some 0, updated_at := none })], true) ∧
    upsert_athlete [("X",
        { name := Value.vnull, country := Value.vnull, gender := "men",
          personal_best := Value.vnull, headshot_url := Value.vnull,
          world_athletics_profile_url := none, marathon_rank := some 1,
          date_of_birth := Value.vnull, sponsor := Value.vnull,
          season_best := Value.vnull, age := Value.vnull,
          raw_json := "\x7b\"id\": \"X\"\x7d", data_hash := some "h",
          ranking_source := "world_marathon", last_fetched_at := some 0,
          last_seen_at := some 0, updated_at := none })]
      [("id", Value.vstr "X")] (some 1) "men" "h" false 5 =
      Except.ok ([("X",
        { name := Value.vnull, country := Value.vnull, gender := "men",
          personal_best := Value.vnull, headshot_url := Value.vnull,
          world_athletics_profile_url := none, marathon_rank := some 1,
          date_of_birth := Value.vnull, sponsor := Value.vnull,
          season_best := Value.vnull, age := Value.vnull,
          raw_json := "\x7b\"id\": \"X\"\x7d", data_hash := some "h",
          ranking_source := "world_marathon", last_fetched_at := some 0,
          last_seen_at := some 0, updated_at := none })], false) :=
  ⟨rfl,
   upsert_athlete_idempotent [] _ [("id", Value.vstr "X")] (some 1) "men" "h" 0 5 true rfl⟩

/-- The drop clause, spelled out as a proposition. -/
theorem shouldDrop_iff (g : String) (ids : List String) (p : String × AthleteRow) :
    shouldDrop g ids p = true ↔
      (p.2.gender = g ∧ p.2.ranking_source = "world_marathon" ∧ p.1 ∉ ids ∧
       p.2.last_seen_at ≠ none ∧ ∃ rk : Int, p.2.marathon_rank = some rk ∧ rk ≤ 100) := by
  rw [shouldDrop]
  cases hmr : p.2.marathon_rank with
  | none =>
      simp only [Bool.and_false, Bool.false_eq_true, false_iff]
      rintro ⟨-, -, -, -, rk, hrk, -⟩
      cases hrk
  | some r =>
      simp only [Bool.and_eq_true, beq_iff_eq, Bool.not_eq_true', decide_eq_true_eq,
        Option.isSome_iff_ne_none]
      constructor
      · rintro ⟨⟨⟨⟨hg, hs⟩, hc⟩, hseen⟩, hr⟩
        refine ⟨hg, hs, ?_, hseen, r, rfl, hr⟩
        intro hmem
        have hc2 : ids.contains p.1 = true := List.elem_eq_true_of_mem hmem
        rw [hc2] at hc
        cases hc
      · rintro ⟨hg, hs, hc, hseen, rk, hrk, hr⟩
        cases hrk
        refine ⟨⟨⟨⟨hg, hs⟩, ?_⟩, hseen⟩, hr⟩
        cases hcon : ids.contains p.1 with
        | false => rfl
        | true => exact absurd (List.elem_iff.mp hcon) hc

/-- A dropped row had its currently-ranked marker set. -/
theorem shouldDrop_isSome (g : String) (ids : List String) (p : String × AthleteRow)
    (h : shouldDrop g ids p = true) : p.2.last_seen_at.isSome = true := by
  have h2 := (shouldDrop_iff g ids p).mp h
  exact Option.isSome_iff_ne_none.mpr h2.2.2.2.1

/-- The affected-row count of a conditional marker-clearing pass equals the
number of rows whose marker actually changed. -/
theorem zip_map_filter_count (q : String × AthleteRow → Bool) (t : Nat) :
    ∀ (l : List (String × AthleteRow)),
      (∀ p ∈ l, q p = true → p.2.last_seen_at.isSome = true) →
      ((l.zip (l.map (fun p => if q p then (p.1, clearSeen p.2 t) else p))).filter
          (fun pr => pr.1.2.last_seen_at != pr.2.2.last_seen_at)).length = l.countP q
  | [], _ => rfl
  | p :: l, hq => by
      have ih := zip_map_filter_count q t l
        (fun p2 hp2 hq2 => hq p2 (List.mem_cons_of_mem p hp2) hq2)
      by_cases hqp : q p = true
      · have hsome := hq p (List.mem_cons_self p l) hqp
        obtain ⟨v, hv⟩ := Option.isSome_iff_exists.mp hsome
        have hstep : (p :: l).map (fun r => if q r then (r.1, clearSeen r.2 t) else r) =
            (p.1, clearSeen p.2 t) ::
              l.map (fun r => if q r then (r.1, clearSeen r.2 t) else r) := by
          rw [List.map_cons, if_pos hqp]
        rw [hstep, List.zip_cons_cons, List.filter_cons]
        have hne : ((p, (p.1, clearSeen p.2 t)).1.2.last_seen_at !=
            (p, (p.1, clearSeen p.2 t)).2.2.last_seen_at) = true := by
          simp [clearSeen, hv]
        rw [if_pos hne, List.length_cons, ih, List.countP_cons_of_pos _ _ hqp]
      · have hq0 : q p = false := by
          cases hqb : q p with
          | true => exact absurd hqb hqp
          | false => rfl
        have hstep : (p :: l).map (fun r => if q r then (r.1, clearSeen r.2 t) else r) =
            p :: l.map (fun r => if q r then (r.1, clearSeen r.2 t) else r) := by
          rw [List.map_cons, if_neg hqp]
        rw [hstep, List.zip_cons_cons, List.filter_cons]
        have hne : ((p, p).1.2.last_seen_at != (p, p).2.2.last_seen_at) = false := by simp
        rw [if_neg (by simp [hne]), ih, List.countP_cons_of_neg _ _ (by simp [hq0])]

/-- C6: the live (non-dry-run) Drop Marker clears the currently-ranked
marker on exactly the persisted rows of the run's category (gender and the
`world_marathon` ranking source that scopes this pipeline's records) whose
id is not in the current ranked-id list, whose `last_seen_at` is currently
non-null, and whose stored rank is non-null and at most 100; the returned
count is the number of rows whose marker actually changed; and a row whose
id is in the current summary list is never marked dropped, whatever its
state. -/
theorem mark_dropped_athletes_spec (db : DB) (ids : List String) (g : String) (t : Nat)
    (p : String × AthleteRow) (rk : Int) (hp : p ∈ db) :
    ((mark_dropped_athletes db ids g false t).2 =
       ((db.zip (mark_dropped_athletes db ids g false t).1).filter
          (fun pr => pr.1.2.last_seen_at != pr.2.2.last_seen_at)).length) ∧
    (p.1 ∈ ids → p ∈ (mark_dropped_athletes db ids g false t).1) ∧
    (p.2.gender = g → p.2.ranking_source = "world_marathon" → p.1 ∉ ids →
       p.2.last_seen_at ≠ none → p.2.marathon_rank = some rk → rk ≤ 100 →
       (p.1, clearSeen p.2 t) ∈ (mark_dropped_athletes db ids g false t).1) ∧
    (¬ (p.2.gender = g ∧ p.2.ranking_source = "world_marathon" ∧ p.1 ∉ ids ∧
        p.2.last_seen_at ≠ none ∧ ∃ rk2 : Int, p.2.marathon_rank = some rk2 ∧ rk2 ≤ 100) →
       p ∈ (mark_dropped_athletes db ids g false t).1) := by
  have hdef : mark_dropped_athletes db ids g false t =
      (db.map (fun q => if shouldDrop g ids q then (q.1, clearSeen q.2 t) else q),
       db.countP (fun q => shouldDrop g ids q)) := by
    rw [mark_dropped_athletes]
    rfl
  refine ⟨?_, ?_, ?_, ?_⟩
  · rw [hdef]
    exact (zip_map_filter_count (fun q => shouldDrop g ids q) t db
      (fun p2 _ h2 => shouldDrop_isSome g ids p2 h2)).symm
  · intro hmem
    rw [hdef]
    have himg : (fun q => if shouldDrop g ids q then (q.1, clearSeen q.2 t) else q) p = p := by
      dsimp only
      rw [if_neg (by simp [shouldDrop_mem_false g ids p.1 p.2 hmem])]
    exact himg ▸ List.mem_map_of_mem _ hp
  · intro hg hs hni hseen hrk hr100
    rw [hdef]
    have hsd : shouldDrop g ids p = true :=
      (shouldDrop_iff g ids p).mpr ⟨hg, hs, hni, hseen, rk, hrk, hr100⟩
    have himg : (fun q => if shouldDrop g ids q then (q.1, clearSeen q.2 t) else q) p =
        (p.1, clearSeen p.2 t) := by
      dsimp only
      rw [if_pos hsd]
    exact himg ▸ List.mem_map_of_mem _ hp
  · intro hnc
    rw [hdef]
    have hsd : shouldDrop g ids p = false := by
      cases hb : shouldDrop g ids p with
      | true => exact absurd ((shouldDrop_iff g ids p).mp hb) hnc
      | false => rfl
    have himg : (fun q => if shouldDrop g ids q then (q.1, clearSeen q.2 t) else q) p = p := by
      dsimp only
      rw [if_neg (by simp [hsd])]
    exact himg ▸ List.mem_map_of_mem _ hp

/-- C6 (witness): a marked row with rank 40 outside the current top-100
list is cleared by the Drop Marker. -/
theorem mark_dropped_athletes_spec_witness :
    (("B456", exampleRow (some 40) (some 7) (some 0) (some "H1") "men") ∈
       ([("B456", exampleRow (some 40) (some 7) (some 0) (some "H1") "men")] : DB)) ∧
    ((exampleRow (some 40) (some 7) (some 0) (some "H1") "men").gender = "men" ∧
     (exampleRow (some 40) (some 7) (some 0) (some "H1") "men").ranking_source =
       "world_marathon" ∧
     "B456" ∉ ["A123"] ∧
     (exampleRow (some 40) (some 7) (some 0) (some "H1") "men").last_seen_at ≠ none ∧
     (exampleRow (some 40) (some 7) (some 0) (some "H1") "men").marathon_rank = some 40 ∧
     (40 : Int) ≤ 100) ∧
    ("B456", clearSeen (exampleRow (some 40) (some 7) (some 0) (some "H1") "men") 9) ∈
      (mark_dropped_athletes [("B456", exampleRow (some 40) (some 7) (some 0) (some "H1") "men")]
        ["A123"] "men" false 9).1 :=
  ⟨List.Mem.head _,
   ⟨rfl, rfl, by decide, by decide, rfl, by decide⟩,
   (mark_dropped_athletes_spec
      [("B456", exampleRow (some 40) (some 7) (some 0) (some "H1") "men")]
      ["A123"] "men" 9
      ("B456", exampleRow (some 40) (some 7) (some 0) (some "H1") "men") 40
      (List.Mem.head _)).2.2.1
     rfl rfl (by decide) (by decide) rfl (by decide)⟩

/-- C7 (amended): an id present in summary and snapshot with an equal rank
and a fresh `last_fetched_at` (within the 7-day staleness threshold) is in
none of the three candidate sets, is absent from the candidate union (so
its details are never fetched), and its row is untouched by the whole
category run — no write happens for it.  (The `unchanged_athletes` counter
is NOT incremented for such an id: in the source that counter only counts
fetched candidates whose conditional upsert turned out to be a no-op, and a
skipped id is processed by no loop at all.) -/
theorem unchanged_id_skipped (fetcher : String → Option (List (String × Value)))
    (nodes : List SummaryNode) (g : String) (db0 : DB) (now t : Nat) (stats0 : SyncStats)
    (node : SummaryNode) (row : AthleteRow) (lf : Nat)
    (hnd : (nodes.map (fun n => n.id)).Nodup)
    (hmem : node ∈ nodes)
    (hrow : db0.lookup node.id = some row)
    (hrk : row.marathon_rank = node.rank)
    (hlf : row.last_fetched_at = some lf)
    (hfresh : (now - lf) / 86400 ≤ 7)
    (hfid : ∀ i d, fetcher i = some d → waIdOf d = i) :
    node.id ∉ runCandidates nodes db0 now ∧
    ((sync_category fetcher nodes g db0 now t false stats0).1).lookup node.id = some row := by
  have hids : node.id ∈ nodes.map (fun n => n.id) := List.mem_map.mpr ⟨node, hmem, rfl⟩
  have hsnap : (load_db_snapshot db0 (nodes.map (fun n => n.id))).lookup node.id =
      some ⟨row.data_hash, row.marathon_rank, row.last_fetched_at, row.last_seen_at⟩ := by
    rw [lookup_load_db_snapshot db0 _ node.id hids, hrow]
    rfl
  have hinj : ∀ x ∈ nodes, ∀ y ∈ nodes, x.id = y.id → x = y :=
    fun x hx y hy hxy => List.inj_on_of_nodup_map hnd hx hy hxy
  have hnotin : node.id ∉ runCandidates nodes db0 now := by
    have hrceq : runCandidates nodes db0 now =
        candidateUnion
          (detect_candidates nodes (load_db_snapshot db0 (nodes.map (fun n => n.id))) now 7).1
          (detect_candidates nodes (load_db_snapshot db0 (nodes.map (fun n => n.id))) now 7).2.1
          (detect_candidates nodes (load_db_snapshot db0 (nodes.map (fun n => n.id))) now 7).2.2 :=
      rfl
    rw [hrceq]
    intro hin
    rcases (mem_candidateUnion _ _ _ _).mp hin with h | h | h
    · obtain ⟨n, hn, hnx, hnone⟩ := ((mem_detect_candidates nodes _ now 7 node.id).1).mp h
      rw [hnx, hsnap] at hnone
      cases hnone
    · obtain ⟨n, hn, hnx, info2, hlk2, hne⟩ :=
        ((mem_detect_candidates nodes _ now 7 node.id).2.1).mp h
      have hnn : n = node := hinj n hn node hmem hnx
      rw [hnn, hsnap] at hlk2
      cases hlk2
      rw [hnn] at hne
      exact hne hrk
    · obtain ⟨n, hn, hnx, info2, hlk2, f2, hf2, hd⟩ :=
        ((mem_detect_candidates nodes _ now 7 node.id).2.2).mp h
      rw [hnx, hsnap] at hlk2
      cases hlk2
      rw [hlf] at hf2
      cases hf2
      omega
  refine ⟨hnotin, ?_⟩
  rw [sync_category_lookup_preserved fetcher nodes g db0 now t stats0 node.id hids
    (fun i hi d hfd heq => hnotin (by rw [heq, hfid i d hfd]; exact hi)), hrow]

/-- C7 (witness). -/
theorem unchanged_id_skipped_witness :
    ((([⟨"A123", some 5⟩] : List SummaryNode).map (fun n => n.id)).Nodup ∧
     (⟨"A123", some 5⟩ : SummaryNode) ∈ ([⟨"A123", some 5⟩] : List SummaryNode) ∧
     ([("A123", exampleRow (some 5) (some 1) (some 864000) (some "H1") "men")] : DB).lookup
       (SummaryNode.mk "A123" (some 5)).id =
         some (exampleRow (some 5) (some 1) (some 864000) (some "H1") "men") ∧
     (exampleRow (some 5) (some 1) (some 864000) (some "H1") "men").marathon_rank =
       (SummaryNode.mk "A123" (some 5)).rank ∧
     (exampleRow (some 5) (some 1) (some 864000) (some "H1") "men").last_fetched_at =
       some 864000 ∧
     (864005 - 864000) / 86400 ≤ 7) ∧
    ((SummaryNode.mk "A123" (some 5)).id ∉ runCandidates [⟨"A123", some 5⟩]
       [("A123", exampleRow (some 5) (some 1) (some 864000) (some "H1") "men")] 864005 ∧
     ((sync_category (fun _ => none) [⟨"A123", some 5⟩] "men"
        [("A123", exampleRow (some 5) (some 1) (some 864000) (some "H1") "men")]
        864005 999 false SyncStats.init).1).lookup (SummaryNode.mk "A123" (some 5)).id =
       some (exampleRow (some 5) (some 1) (some 864000) (some "H1") "men")) :=
  ⟨⟨by decide, by decide, rfl, rfl, rfl, by decide⟩,
   unchanged_id_skipped (fun _ => none) [⟨"A123", some 5⟩] "men"
     [("A123", exampleRow (some 5) (some 1) (some 864000) (some "H1") "men")]
     864005 999 SyncStats.init ⟨"A123", some 5⟩
     (exampleRow (some 5) (some 1) (some 864000) (some "H1") "men") 864000
     (by decide) (by decide) rfl rfl rfl (by decide)
     (fun i d h => nomatch h)⟩

/-- C7 (counterexample): for the spec's own scenario — snapshot has A123 at
rank 5 with fresh data, summary has A123 at rank 5 — the run computes an
empty candidate set and finishes with `unchanged_athletes = 0` starting
from zeroed stats: the `unchanged += 1` the claim demands never happens for
a skipped id, because that counter is only incremented inside the
processing loop over fetched candidates. -/
theorem unchanged_counter_cex :
    detect_candidates [⟨"A123", some 5⟩]
      (load_db_snapshot
        [("A123", exampleRow (some 5) (some 1) (some 864000) (some "H1") "men")] ["A123"])
      864000 7 = ([], [], []) ∧
    (sync_category (fun _ => none) [⟨"A123", some 5⟩] "men"
      [("A123", exampleRow (some 5) (some 1) (some 864000) (some "H1") "men")]
      864000 999 false SyncStats.init).2.unchanged_athletes = 0 := by
  exact ⟨by decide, by decide⟩

/-- C4 (amended): a candidate id whose detail fetch ultimately fails after
exhausting retries is absent from the Detail Fetcher's result mapping, no
upsert is attempted for it (its row is bit-for-bit untouched by the whole
category run), and the remaining candidates are unaffected — every id whose
fetch succeeds is in the result mapping and is processed.  However the
`fetch_errors` counter is NOT incremented for it: `fetch_athlete_details`
swallows the failure (`continue`), and the only `fetch_errors += 1` site is
the batch-level exception handler, which per-id failures never reach. -/
theorem fetch_failure_isolated (fetcher : String → Option (List (String × Value)))
    (nodes : List SummaryNode) (g : String) (db0 : DB) (now t : Nat) (stats0 : SyncStats)
    (cid : String)
    (hcid : fetcher cid = none)
    (hfid : ∀ i d, fetcher i = some d → waIdOf d = i)
    (hsum : cid ∈ nodes.map (fun n => n.id)) :
    (∀ ids : List String, cid ∉ (fetch_athlete_details fetcher ids).map Prod.fst) ∧
    (∀ (ids : List String) (oid : String) (d : List (String × Value)),
       oid ∈ ids → fetcher oid = some d → (oid, d) ∈ fetch_athlete_details fetcher ids) ∧
    ((sync_category fetcher nodes g db0 now t false stats0).1).lookup cid =
      db0.lookup cid ∧
    ((sync_category fetcher nodes g db0 now t false stats0).2).fetch_errors =
      stats0.fetch_errors := by
  refine ⟨?_, ?_, ?_, ?_⟩
  · intro ids hin
    obtain ⟨it, hit, hfst⟩ := List.mem_map.mp hin
    have hs := fetch_athlete_details_sound fetcher ids it hit
    rw [hfst] at hs
    rw [hcid] at hs
    cases hs.2
  · intro ids oid d hmem hf
    exact (mem_fetch_athlete_details fetcher ids oid d).mpr ⟨hmem, hf⟩
  · refine sync_category_lookup_preserved fetcher nodes g db0 now t stats0 cid hsum ?_
    intro i hi d hfd heq
    rw [hfid i d hfd] at heq
    rw [heq] at hcid
    rw [hcid] at hfd
    cases hfd
  · exact sync_category_fetch_errors fetcher nodes g db0 now t false stats0

/-- C4 (witness). -/
theorem fetch_failure_isolated_witness :
    ((fun _ : String => (none : Option (List (String × Value)))) "C789" = none ∧
     "C789" ∈ ([⟨"C789", some 1⟩] : List SummaryNode).map (fun n => n.id)) ∧
    ((∀ ids : List String, "C789" ∉
        (fetch_athlete_details (fun _ => none) ids).map Prod.fst) ∧
     (∀ (ids : List String) (oid : String) (d : List (String × Value)),
        oid ∈ ids → (fun _ : String => (none : Option (List (String × Value)))) oid = some d →
        (oid, d) ∈ fetch_athlete_details (fun _ => none) ids) ∧
     ((sync_category (fun _ => none) [⟨"C789", some 1⟩] "men" [] 0 0 false
         SyncStats.init).1).lookup "C789" = (([] : DB)).lookup "C789" ∧
     ((sync_category (fun _ => none) [⟨"C789", some 1⟩] "men" [] 0 0 false
         SyncStats.init).2).fetch_errors = SyncStats.init.fetch_errors) :=
  ⟨⟨rfl, by decide⟩,
   fetch_failure_isolated (fun _ => none) [⟨"C789", some 1⟩] "men" [] 0 0 SyncStats.init
     "C789" rfl (fun i d h => nomatch h) (by decide)⟩

/-- C4 (counterexample): a candidate whose fetch fails five times is simply
skipped — the result mapping is empty and `fetch_errors` stays 0 after the
run (the claim demands `fetch_errors` be incremented by one for the id). -/
theorem fetch_errors_not_counted_cex :
    fetch_athlete_details (fun _ => none) ["C789"] = [] ∧
    "C789" ∈ (detect_candidates [⟨"C789", some 1⟩] (load_db_snapshot [] ["C789"]) 0 7).1 ∧
    (sync_category (fun _ => none) [⟨"C789", some 1⟩] "men" [] 0 0 false
      SyncStats.init).2.fetch_errors = 0 := by
  exact ⟨rfl, by decide, by decide⟩

/-- C3: hash determinism.  Two detail-record dictionaries whose ten
canonical-projection field values are pairwise equal — whatever their key
order and whatever extra non-canonical fields they carry — canonicalize to
the same projection and therefore hash, through
`canonical_hash ∘ canonicalize_athlete` (sorted-key compact JSON followed
by SHA-256 over the UTF-8 bytes), to identical hex strings. -/
theorem canonical_hash_deterministic (d1 d2 : List (String × Value))
    (hid : pyOr (pyGet d1 "id") (pyGet d1 "worldAthleticsId") =
           pyOr (pyGet d2 "id") (pyGet d2 "worldAthleticsId"))
    (hname : pyGet d1 "name" = pyGet d2 "name")
    (hgender : pyGet d1 "gender" = pyGet d2 "gender")
    (hcountry : pyGet d1 "country" = pyGet d2 "country")
    (hdob : pyOr (pyGet d1 "dob") (pyGet d1 "dateOfBirth") =
            pyOr (pyGet d2 "dob") (pyGet d2 "dateOfBirth"))
    (hpb : pyOr (pyGet d1 "personalBest") (pyGet d1 "pb") =
           pyOr (pyGet d2 "personalBest") (pyGet d2 "pb"))
    (hsb : pyGet d1 "seasonBest" = pyGet d2 "seasonBest")
    (hhs : pyOr (pyGet d1 "headshotUrl") (pyGet d1 "headshot") =
           pyOr (pyGet d2 "headshotUrl") (pyGet d2 "headshot"))
    (hsp : pyGet d1 "sponsor" = pyGet d2 "sponsor")
    (hage : pyGet d1 "age" = pyGet d2 "age") :
    canonicalize_athlete d1 = canonicalize_athlete d2 ∧
    canonical_hash (canonicalize_athlete d1) = canonical_hash (canonicalize_athlete d2) := by
  have hc : canonicalize_athlete d1 = canonicalize_athlete d2 := by
    rw [canonicalize_athlete, canonicalize_athlete, hid, hname, hgender, hcountry, hdob,
      hpb, hsb, hhs, hsp, hage]
  exact ⟨hc, congrArg canonical_hash hc⟩

/-- C3 (witness): one dictionary carries an extra volatile `rank` field and
lists `worldAthleticsId` first; the other is reordered and has an explicit
null `id`.  The projections agree field by field, so the hashes agree. -/
theorem canonical_hash_deterministic_witness :
    (pyOr (pyGet [("worldAthleticsId", Value.vstr "1"), ("name", Value.vstr "A"),
          ("rank", Value.vint 7)] "id")
        (pyGet [("worldAthleticsId", Value.vstr "1"), ("name", Value.vstr "A"),
          ("rank", Value.vint 7)] "worldAthleticsId") =
      pyOr (pyGet [("name", Value.vstr "A"), ("id", Value.vnull),
          ("worldAthleticsId", Value.vstr "1")] "id")
        (pyGet [("name", Value.vstr "A"), ("id", Value.vnull),
          ("worldAthleticsId", Value.vstr "1")] "worldAthleticsId")) ∧
    canonical_hash (canonicalize_athlete
        [("worldAthleticsId", Value.vstr "1"), ("name", Value.vstr "A"),
         ("rank", Value.vint 7)]) =
      canonical_hash (canonicalize_athlete
        [("name", Value.vstr "A"), ("id", Value.vnull),
         ("worldAthleticsId", Value.vstr "1")]) :=
  ⟨rfl,
   (canonical_hash_deterministic
      [("worldAthleticsId", Value.vstr "1"), ("name", Value.vstr "A"),
       ("rank", Value.vint 7)]
      [("name", Value.vstr "A"), ("id", Value.vnull),
       ("worldAthleticsId", Value.vstr "1")]
      rfl rfl rfl rfl rfl rfl rfl rfl rfl rfl).2⟩
